import Mathlib

/-!
Verification development for the urbanpy geospatial helper library
(src/urbanpy/geom/geom.py and src/urbanpy/utils/utils.py).

The Python code is shallowly embedded: dataframes become lists of rows,
geometries become explicit inductive data or type parameters, machine
floats become rationals, NaN cells become Option values, and raising
code returns Except or Option.  External collaborators (pandas,
geopandas, h3, osmnx, scikit-learn) are modelled either as explicit
Lean functions mirroring their documented semantics or as function
parameters, as noted in each doc comment.
-/

namespace UrbanPy

/-- A dataframe cell value: some q is a real value, none is NaN / missing. -/
abbrev Val := Option Rat

/-- Remove duplicates keeping the first occurrence, preserving order.
This is the semantics of pandas DataFrame.drop_duplicates (keep="first"). -/
def dropDupsFirst [DecidableEq α] : List α → List α
  | [] => []
  | x :: xs => x :: dropDupsFirst (xs.filter (fun y => y ≠ x))
termination_by l => l.length
decreasing_by
  simp only [List.length_cons]
  exact Nat.lt_succ_of_le (List.length_filter_le _ xs)

theorem dropDupsFirst_nil [DecidableEq α] : dropDupsFirst ([] : List α) = [] := by
  simp [dropDupsFirst]

theorem dropDupsFirst_cons [DecidableEq α] (x : α) (xs : List α) :
    dropDupsFirst (x :: xs) = x :: dropDupsFirst (xs.filter (fun y => y ≠ x)) := by
  simp [dropDupsFirst]

theorem mem_dropDupsFirst [DecidableEq α] (a : α) :
    ∀ l : List α, a ∈ dropDupsFirst l ↔ a ∈ l
  | [] => by simp [dropDupsFirst]
  | x :: xs => by
    rw [dropDupsFirst_cons]
    by_cases hax : a = x
    · subst hax; simp
    · simp only [List.mem_cons, hax, false_or]
      rw [mem_dropDupsFirst a (xs.filter (fun y => y ≠ x))]
      simp [List.mem_filter, hax]
termination_by l => l.length
decreasing_by
  simp only [List.length_cons]
  exact Nat.lt_succ_of_le (List.length_filter_le _ xs)

theorem nodup_dropDupsFirst [DecidableEq α] : ∀ l : List α, (dropDupsFirst l).Nodup
  | [] => by simp [dropDupsFirst]
  | x :: xs => by
    rw [dropDupsFirst_cons]
    refine List.nodup_cons.mpr ⟨?_, nodup_dropDupsFirst (xs.filter (fun y => y ≠ x))⟩
    intro hmem
    rw [mem_dropDupsFirst] at hmem
    simp at hmem
termination_by l => l.length
decreasing_by
  simp only [List.length_cons]
  exact Nat.lt_succ_of_le (List.length_filter_le _ xs)

/-! ## Bounds filter (src/urbanpy/geom/geom.py, filter_population, lines 85-92)

A population row carries a latitude, a longitude and further numeric
attribute columns.  The reference polygon collection is modelled by the
vertex lists of its polygons; GeoDataFrame.total_bounds is the smallest
axis-aligned box (minx, miny, maxx, maxy) enclosing all vertices, which
for polygons coincides with the bounds over their vertex coordinates. -/

structure PopRow where
  latitude : Rat
  longitude : Rat
  attrs : List (String × Rat)
deriving DecidableEq, Repr

structure Bounds where
  minx : Rat
  miny : Rat
  maxx : Rat
  maxy : Rat
deriving DecidableEq, Repr

def boundsUnion (b : Bounds) (p : Rat × Rat) : Bounds :=
  ⟨min b.minx p.1, min b.miny p.2, max b.maxx p.1, max b.maxy p.2⟩

/-- GeoDataFrame.geometry.total_bounds over the polygon collection.  On an
empty collection the library yields NaN bounds, modelled here as none. -/
def total_bounds (polys : List (List (Rat × Rat))) : Option Bounds :=
  match polys.flatten with
  | [] => none
  | v :: vs => some (vs.foldl boundsUnion ⟨v.1, v.2, v.1, v.2⟩)

/-- pandas Series.between with default inclusive bounds. -/
def between (x lo hi : Rat) : Bool := decide (lo ≤ x) && decide (x ≤ hi)

/-- filter_population from geom.py: keep the rows whose longitude lies in
[minx, maxx] and latitude in [miny, maxy], then attach a point geometry
built by points_from_xy(longitude, latitude), i.e. the pair (lon, lat). -/
def filter_population (pop_df : List PopRow) (polygon_gdf : List (List (Rat × Rat))) :
    Option (List (PopRow × (Rat × Rat))) :=
  match total_bounds polygon_gdf with
  | none => none
  | some b =>
    let filtered := pop_df.filter
      (fun r => between r.longitude b.minx b.maxx && between r.latitude b.miny b.maxy)
    some (filtered.map (fun r => (r, (r.longitude, r.latitude))))

/-! ## Duration bins (src/urbanpy/utils/utils.py, create_duration_labels, lines 153-192) -/

def default_bins : List Int := [0, 15, 30, 45, 60, 90, 120]

def default_labels : List String :=
  ["De 0 a 15", "De 15 a 30", "De 30 a 45", "De 45 a 60",
   "De 60 a 90", "De 90 a 120", "Más de 120"]

/-- Python sorted(set(l)): the ascending sort of the distinct elements. -/
def pySortedSet (l : List Int) : List Int := (l.dedup).insertionSort (fun a b => a ≤ b)

/-- Body of create_duration_labels after max_duration_asint = ceil(max) has
been computed, following the source line by line: insert ceil(max) into a
copy of the default bins, sort the distinct values, find the index of
ceil(max), append ceil(max) to the default bins when it lands past their
end and differs from their last entry, then truncate bins and labels. -/
def cdl_core (max_duration_asint : Int) : List Int × List String :=
  let bins0 := pySortedSet (max_duration_asint :: default_bins)
  let ix := bins0.indexOf max_duration_asint
  let bins1 :=
    if decide (default_bins.length ≤ ix + 1) &&
       decide (some max_duration_asint ≠ default_bins.getLast?) then
      default_bins ++ [max_duration_asint]
    else default_bins
  (bins1.take (ix + 1), default_labels.take ix)

/-- create_duration_labels from utils.py.  durations.max() of an empty
series is NaN and math.ceil then raises, modelled as none. -/
def create_duration_labels (durations : List Rat) : Option (List Int × List String) :=
  match durations.max? with
  | none => none
  | some mx => some (cdl_core (Int.ceil mx))

theorem filter_population_mem (pop_df : List PopRow) (polys : List (List (Rat × Rat)))
    (b : Bounds) (hb : total_bounds polys = some b) (r : PopRow) (g : Rat × Rat) (out : List (PopRow × (Rat × Rat)))
    (hout : filter_population pop_df polys = some out) :
    ((r, g) ∈ out ↔
      (r ∈ pop_df ∧ (b.minx ≤ r.longitude ∧ r.longitude ≤ b.maxx ∧
        b.miny ≤ r.latitude ∧ r.latitude ≤ b.maxy) ∧ g = (r.longitude, r.latitude))) := by
  unfold filter_population at hout
  rw [hb] at hout
  simp only [Option.some.injEq] at hout
  subst hout
  simp only [List.mem_map, List.mem_filter, between, Bool.and_eq_true, decide_eq_true_eq]
  constructor
  · rintro ⟨r', ⟨hmem, ⟨hx1, hx2⟩, ⟨hy1, hy2⟩⟩, heq⟩
    obtain ⟨h1, h2⟩ := Prod.mk.injEq .. ▸ heq
    subst h1
    exact ⟨hmem, ⟨hx1, hx2, hy1, hy2⟩, h2.symm⟩
  · rintro ⟨hmem, ⟨hx1, hx2, hy1, hy2⟩, hg⟩
    exact ⟨r, ⟨hmem, ⟨hx1, hx2⟩, ⟨hy1, hy2⟩⟩, by rw [hg]⟩

/-- Claim C3: the bounds filter keeps a row exactly when its longitude lies
in [minx, maxx] and its latitude in [miny, maxy] of the bounding box
derived from the reference polygon collection, bounds inclusive, and each
kept row receives the point geometry (longitude, latitude). -/
theorem filter_population_c3 (pop_df : List PopRow) (polys : List (List (Rat × Rat)))
    (b : Bounds) (hb : total_bounds polys = some b) :
    ∃ out, filter_population pop_df polys = some out ∧
      (∀ r : PopRow, (∃ g, (r, g) ∈ out) ↔
        (r ∈ pop_df ∧ b.minx ≤ r.longitude ∧ r.longitude ≤ b.maxx ∧
          b.miny ≤ r.latitude ∧ r.latitude ≤ b.maxy)) ∧
      (∀ rg ∈ out, rg.2 = (rg.1.longitude, rg.1.latitude)) := by
  have hsome : ∃ out, filter_population pop_df polys = some out := by
    unfold filter_population
    rw [hb]
    exact ⟨_, rfl⟩
  obtain ⟨out, hout⟩ := hsome
  refine ⟨out, hout, ?_, ?_⟩
  · intro r
    constructor
    · rintro ⟨g, hg⟩
      have := (filter_population_mem pop_df polys b hb r g out hout).mp hg
      exact ⟨this.1, this.2.1⟩
    · rintro ⟨hmem, hx1, hx2, hy1, hy2⟩
      exact ⟨(r.longitude, r.latitude),
        (filter_population_mem pop_df polys b hb r _ out hout).mpr
          ⟨hmem, ⟨hx1, hx2, hy1, hy2⟩, rfl⟩⟩
  · rintro ⟨r, g⟩ hrg
    exact ((filter_population_mem pop_df polys b hb r g out hout).mp hrg).2.2

/-- Witness for C3 at a concrete input: two rows against the box
[0, 2] x [0, 3]; the first row (1, 1) is kept, the second (5, 1) is not. -/
theorem filter_population_c3_witness :
    ∃ out, filter_population
        [⟨1, 1, [("population", 7)]⟩, ⟨1, 5, [("population", 9)]⟩]
        [[(0, 0), (2, 0), (2, 3), (0, 3)]] = some out ∧
      (∀ r : PopRow, (∃ g, (r, g) ∈ out) ↔
        (r ∈ [⟨1, 1, [("population", 7)]⟩, ⟨1, 5, [("population", 9)]⟩] ∧
          (0:Rat) ≤ r.longitude ∧ r.longitude ≤ 2 ∧
          (0:Rat) ≤ r.latitude ∧ r.latitude ≤ 3)) ∧
      (∀ rg ∈ out, rg.2 = (rg.1.longitude, rg.1.latitude)) :=
  filter_population_c3
    [⟨1, 1, [("population", 7)]⟩, ⟨1, 5, [("population", 9)]⟩]
    [[(0, 0), (2, 0), (2, 3), (0, 3)]] ⟨0, 0, 2, 3⟩ (by decide)

theorem insertionSort_default_bins :
    List.insertionSort (fun a b => a ≤ b) default_bins = default_bins := by decide

theorem pySortedSet_mid (c : Int) (h1 : 90 < c) (h2 : c < 120) :
    pySortedSet (c :: default_bins) = [0, 15, 30, 45, 60, 90, c, 120] := by
  have hno : c ∉ default_bins := by
    intro hmem
    simp only [default_bins, List.mem_cons, List.not_mem_nil, or_false] at hmem
    rcases hmem with h | h | h | h | h | h | h <;> omega
  unfold pySortedSet
  rw [List.dedup_cons_of_not_mem hno, List.dedup_eq_self.mpr (by decide)]
  show List.orderedInsert _ c (List.insertionSort _ default_bins) = _
  rw [insertionSort_default_bins]
  simp only [default_bins, List.orderedInsert]
  rw [if_neg (by omega), if_neg (by omega), if_neg (by omega), if_neg (by omega),
    if_neg (by omega), if_neg (by omega), if_pos (by omega)]

theorem cdl_core_mid (c : Int) (h1 : 90 < c) (h2 : c ≤ 120) :
    cdl_core c = (default_bins, default_labels.take 6) := by
  by_cases hc : c = 120
  · subst hc; decide
  · have h2' : c < 120 := lt_of_le_of_ne h2 hc
    simp only [cdl_core]
    rw [pySortedSet_mid c h1 h2']
    have hix : List.indexOf c [0, 15, 30, 45, 60, 90, c, 120] = 6 := by
      rw [List.indexOf_cons_ne _ (by omega), List.indexOf_cons_ne _ (by omega),
        List.indexOf_cons_ne _ (by omega), List.indexOf_cons_ne _ (by omega),
        List.indexOf_cons_ne _ (by omega), List.indexOf_cons_ne _ (by omega),
        List.indexOf_cons_self]
    rw [hix]
    rw [if_pos (by simp [default_bins]; omega)]
    simp [default_bins, default_labels]

theorem pySortedSet_insert (c : Int) (hno : c ∉ default_bins) :
    pySortedSet (c :: default_bins) =
      default_bins.takeWhile (fun b => decide (b < c)) ++
        c :: default_bins.dropWhile (fun b => decide (b < c)) := by
  unfold pySortedSet
  rw [List.dedup_cons_of_not_mem hno, List.dedup_eq_self.mpr (by decide)]
  show List.orderedInsert _ c (List.insertionSort _ default_bins) = _
  rw [insertionSort_default_bins, List.orderedInsert_eq_take_drop]
  have hpred : (fun b => decide ¬ c ≤ b) = (fun b : Int => decide (b < c)) := by
    funext b
    rw [decide_eq_decide]
    exact not_le
  rw [hpred]

theorem indexOf_append_cons_self (c : Int) :
    ∀ t : List Int, c ∉ t → ∀ d : List Int, List.indexOf c (t ++ c :: d) = t.length
  | [], _, d => by simp
  | a :: t, h, d => by
    simp only [List.mem_cons, not_or] at h
    rw [List.cons_append, List.indexOf_cons_ne _ (Ne.symm h.1),
      indexOf_append_cons_self c t h.2 d]
    rfl

theorem cdl_core_le (c : Int) (hc : c ≤ 120) :
    cdl_core c =
      (default_bins.take ((default_bins.takeWhile (fun b => decide (b < c))).length + 1),
       default_labels.take (default_bins.takeWhile (fun b => decide (b < c))).length) := by
  by_cases hmem : c ∈ default_bins
  · have hcases : c = 0 ∨ c = 15 ∨ c = 30 ∨ c = 45 ∨ c = 60 ∨ c = 90 ∨ c = 120 := by
      simpa [default_bins] using hmem
    rcases hcases with h | h | h | h | h | h | h <;> subst h <;> decide
  · have hne120 : c ≠ 120 := fun he => hmem (he ▸ (by decide : (120:Int) ∈ default_bins))
    have hlen6 : (default_bins.takeWhile (fun b => decide (b < c))).length ≤ 6 := by
      by_contra h7
      push_neg at h7
      have hpre := List.takeWhile_prefix (l := default_bins) (fun b => decide (b < c))
      have hle : (default_bins.takeWhile (fun b => decide (b < c))).length ≤ 7 := by
        have hs := hpre.sublist.length_le
        simpa [default_bins] using hs
      have heq7 : (default_bins.takeWhile (fun b => decide (b < c))).length = 7 := by omega
      have heq : default_bins.takeWhile (fun b => decide (b < c)) = default_bins :=
        hpre.eq_of_length (by rw [heq7]; decide)
      have h120 : (120:Int) ∈ default_bins.takeWhile (fun b => decide (b < c)) := by
        rw [heq]; decide
      have h120c := List.mem_takeWhile_imp h120
      simp at h120c
      omega
    have hnt : c ∉ default_bins.takeWhile (fun b => decide (b < c)) := fun hmt =>
      hmem (List.Sublist.mem hmt (List.takeWhile_prefix _).sublist)
    simp only [cdl_core]
    rw [pySortedSet_insert c hmem, indexOf_append_cons_self c _ hnt _]
    have hgl : default_bins.getLast? = some (120:Int) := by decide
    rw [hgl]
    by_cases h6 : (default_bins.takeWhile (fun b => decide (b < c))).length = 6
    · rw [h6]
      rw [if_pos (by
        simp only [Bool.and_eq_true, decide_eq_true_eq]
        exact ⟨by decide, by simpa using hne120⟩)]
      rw [List.take_append_of_le_length (by decide : 6 + 1 ≤ default_bins.length)]
    · rw [if_neg (by
        intro hcond
        rw [Bool.and_eq_true, decide_eq_true_eq, decide_eq_true_eq] at hcond
        have h7 := hcond.1
        rw [(by decide : default_bins.length = 7)] at h7
        omega)]

theorem cdl_core_len (c : Int) : (cdl_core c).1.length = (cdl_core c).2.length + 1 := by
  have hmem : c ∈ pySortedSet (c :: default_bins) := by
    unfold pySortedSet
    rw [(List.perm_insertionSort _ _).mem_iff]
    exact List.mem_dedup.mpr (List.mem_cons_self _ _)
  have hlen8 : (pySortedSet (c :: default_bins)).length ≤ 8 := by
    have h1 : (pySortedSet (c :: default_bins)).length = ((c :: default_bins).dedup).length :=
      (List.perm_insertionSort _ _).length_eq
    have h2 := (List.dedup_sublist (c :: default_bins)).length_le
    have h3 : (c :: default_bins).length = 8 := by simp [default_bins]
    omega
  have hixlt : (pySortedSet (c :: default_bins)).indexOf c <
      (pySortedSet (c :: default_bins)).length := List.indexOf_lt_length.mpr hmem
  simp only [cdl_core]
  by_cases h6 : (pySortedSet (c :: default_bins)).indexOf c ≤ 6
  · have h7 : default_bins.length = 7 := by decide
    have hlab : default_labels.length = 7 := by decide
    split
    · simp only [List.length_take, List.length_append, List.length_singleton, h7, hlab]
      omega
    · simp only [List.length_take, h7, hlab]
      omega
  · have hix7 : (pySortedSet (c :: default_bins)).indexOf c = 7 := by omega
    have hslen : (pySortedSet (c :: default_bins)).length = 8 := by omega
    have hded : (c :: default_bins).dedup = c :: default_bins := by
      apply (List.dedup_sublist _).eq_of_length
      have h1 : (pySortedSet (c :: default_bins)).length = ((c :: default_bins).dedup).length :=
        (List.perm_insertionSort _ _).length_eq
      have h3 : (c :: default_bins).length = 8 := by simp [default_bins]
      omega
    have hnodup : (c :: default_bins).Nodup := List.dedup_eq_self.mp hded
    have hcnot : c ∉ default_bins := (List.nodup_cons.mp hnodup).1
    have hc120 : c ≠ 120 := by
      intro h
      exact hcnot (h ▸ (by decide : (120:Int) ∈ default_bins))
    rw [hix7, if_pos (by simp [default_bins]; exact hc120)]
    simp [default_bins, default_labels]

/-- Claim C10: for every non-empty duration series, create_duration_labels
succeeds and the returned edge list is exactly one longer than the label
list, a valid bins/labels pair for pd.cut. -/
theorem create_duration_labels_c10 (durations : List Rat) (h : durations ≠ []) :
    ∃ bins labels, create_duration_labels durations = some (bins, labels) ∧
      bins.length = labels.length + 1 := by
  obtain ⟨mx, hmx⟩ : ∃ mx, durations.max? = some mx := by
    cases hd : durations.max? with
    | none => exact absurd (List.max?_eq_none_iff.mp hd) h
    | some m => exact ⟨m, rfl⟩
  refine ⟨(cdl_core (Int.ceil mx)).1, (cdl_core (Int.ceil mx)).2, ?_, cdl_core_len _⟩
  unfold create_duration_labels
  rw [hmx]

/-- Witness for C10 at the concrete series [25, 3]. -/
theorem create_duration_labels_c10_witness :
    ∃ bins labels, create_duration_labels [(25:Rat), 3] = some (bins, labels) ∧
      bins.length = labels.length + 1 :=
  create_duration_labels_c10 [(25:Rat), 3] (by decide)

/-- Counterexample to claim C6 as stated: every duration in [10] is at most
120, yet the returned edges are [0, 15] with a single label, not the seven
default edges with six labels. -/
theorem create_duration_labels_c6_counterexample :
    ((10:Rat) ≤ 120) ∧
    create_duration_labels [(10:Rat)] = some ([0, 15], ["De 0 a 15"]) ∧
    ¬ create_duration_labels [(10:Rat)] = some (default_bins, default_labels.take 6) := by
  refine ⟨by decide, ?_, ?_⟩ <;> decide

/-- Claim C6 as amended: when the maximum duration lies in (90, 120] the
seven default edges and their six labels are returned unmodified; when the
maximum duration is 150 the edge list is the defaults extended by exactly
one edge, 150, with all seven labels; and in general, for any maximum at
most 120, the edges are the prefix of the defaults ending at the first
default edge at or above the ceiling of the maximum, with the matching
prefix of the labels (one label fewer than edges). -/
theorem create_duration_labels_c6_amended :
    (∀ (durations : List Rat) (mx : Rat), durations.max? = some mx →
      90 < mx → mx ≤ 120 →
      create_duration_labels durations = some (default_bins, default_labels.take 6)) ∧
    (∀ durations : List Rat, durations.max? = some 150 →
      create_duration_labels durations = some (default_bins ++ [150], default_labels)) ∧
    (∀ (durations : List Rat) (mx : Rat), durations.max? = some mx → mx ≤ 120 →
      create_duration_labels durations =
        some (default_bins.take
            ((default_bins.takeWhile (fun b => decide (b < Int.ceil mx))).length + 1),
          default_labels.take
            (default_bins.takeWhile (fun b => decide (b < Int.ceil mx))).length)) := by
  refine ⟨?_, ?_, ?_⟩
  · intro durations mx hmx h90 h120
    have hcl : (90:Int) < Int.ceil mx := by
      have hq : (90:Rat) < (Int.ceil mx : Rat) := lt_of_lt_of_le h90 (Int.le_ceil mx)
      exact_mod_cast hq
    have hcu : Int.ceil mx ≤ 120 := Int.ceil_le.mpr (by exact_mod_cast h120)
    simp only [create_duration_labels, hmx]
    rw [cdl_core_mid (Int.ceil mx) hcl hcu]
  · intro durations hmx
    simp only [create_duration_labels, hmx]
    have hc : Int.ceil (150:Rat) = 150 := by decide
    rw [hc]
    decide
  · intro durations mx hmx h120
    have hcu : Int.ceil mx ≤ 120 := Int.ceil_le.mpr (by exact_mod_cast h120)
    simp only [create_duration_labels, hmx]
    rw [cdl_core_le (Int.ceil mx) hcu]

/-- Witness for the amended C6 at the concrete series [100], [150, 30]
and [10]. -/
theorem create_duration_labels_c6_amended_witness :
    create_duration_labels [(100:Rat)] = some (default_bins, default_labels.take 6) ∧
    create_duration_labels [(150:Rat), 30] = some (default_bins ++ [150], default_labels) ∧
    create_duration_labels [(10:Rat)] =
      some (default_bins.take
          ((default_bins.takeWhile (fun b => decide (b < Int.ceil (10:Rat)))).length + 1),
        default_labels.take
          (default_bins.takeWhile (fun b => decide (b < Int.ceil (10:Rat)))).length) :=
  ⟨create_duration_labels_c6_amended.1 [(100:Rat)] 100 (by decide) (by decide) (by decide),
   create_duration_labels_c6_amended.2.1 [(150:Rat), 30] (by decide),
   create_duration_labels_c6_amended.2.2 [(10:Rat)] 10 (by decide) (by decide)⟩

/-! ## Coordinate swap (src/urbanpy/utils/utils.py, swap_xy, lines 15-62)

Geometries are the tagged variants the source dispatches on via geom.type:
Point, LineString, LinearRing, Polygon (shell plus holes), and the
recursive Multi*/GeometryCollection wrappers.  A coordinate is two
components plus an optional z, covering both the has_z and the 2-d branch
of the source; both branches swap the first two components and keep the
rest. -/

structure Coord where
  x : Rat
  y : Rat
  z : Option Rat
deriving DecidableEq, Repr

inductive MultiKind where
  | multiPoint
  | multiLineString
  | multiPolygon
  | geometryCollection
deriving DecidableEq, Repr

inductive Geom where
  | point (coords : List Coord)
  | lineString (coords : List Coord)
  | linearRing (coords : List Coord)
  | polygon (shell : List Coord) (holes : List (List Coord))
  | multi (kind : MultiKind) (parts : List Geom)

/-- shapely geom.is_empty: a geometry with no coordinates or parts. -/
def Geom.isEmpty : Geom → Bool
  | .point cs => cs.isEmpty
  | .lineString cs => cs.isEmpty
  | .linearRing cs => cs.isEmpty
  | .polygon shell _ => shell.isEmpty
  | .multi _ parts => parts.isEmpty

/-- The inner swap_xy_coords helper of the source: swap the first two
coordinate components, keep z when present. -/
def swap_xy_coords (c : Coord) : Coord := ⟨c.y, c.x, c.z⟩

mutual

/-- swap_xy from utils.py: empty geometries pass through unchanged,
coordinate-bearing kinds map swap_xy_coords over their coordinates,
polygons process shell and holes, multi kinds recurse over their parts. -/
def swap_xy : Geom → Geom
  | .point cs =>
    if (Geom.point cs).isEmpty then .point cs else .point (cs.map swap_xy_coords)
  | .lineString cs =>
    if (Geom.lineString cs).isEmpty then .lineString cs
    else .lineString (cs.map swap_xy_coords)
  | .linearRing cs =>
    if (Geom.linearRing cs).isEmpty then .linearRing cs
    else .linearRing (cs.map swap_xy_coords)
  | .polygon shell holes =>
    if (Geom.polygon shell holes).isEmpty then .polygon shell holes
    else .polygon (shell.map swap_xy_coords) (holes.map (fun h => h.map swap_xy_coords))
  | .multi k parts =>
    if (Geom.multi k parts).isEmpty then .multi k parts
    else .multi k (swap_xy_list parts)

/-- The list comprehension [swap_xy(part) for part in geom.geoms]. -/
def swap_xy_list : List Geom → List Geom
  | [] => []
  | g :: gs => swap_xy g :: swap_xy_list gs

end

theorem swap_xy_coords_involution (c : Coord) : swap_xy_coords (swap_xy_coords c) = c := rfl

theorem map_swap_xy_coords_involution (cs : List Coord) :
    (cs.map swap_xy_coords).map swap_xy_coords = cs := by
  rw [List.map_map]
  have h : swap_xy_coords ∘ swap_xy_coords = id := funext swap_xy_coords_involution
  rw [h, List.map_id]

theorem map_isEmpty (f : α → β) (l : List α) : (l.map f).isEmpty = l.isEmpty := by
  cases l <;> simp

mutual

theorem swap_xy_involution : ∀ g : Geom, swap_xy (swap_xy g) = g
  | .point cs => by
    by_cases h : (Geom.point cs).isEmpty
    · rw [swap_xy, if_pos h, swap_xy, if_pos h]
    · rw [swap_xy, if_neg h, swap_xy,
        if_neg (by simpa [Geom.isEmpty, map_isEmpty] using h),
        map_swap_xy_coords_involution]
  | .lineString cs => by
    by_cases h : (Geom.lineString cs).isEmpty
    · rw [swap_xy, if_pos h, swap_xy, if_pos h]
    · rw [swap_xy, if_neg h, swap_xy,
        if_neg (by simpa [Geom.isEmpty, map_isEmpty] using h),
        map_swap_xy_coords_involution]
  | .linearRing cs => by
    by_cases h : (Geom.linearRing cs).isEmpty
    · rw [swap_xy, if_pos h, swap_xy, if_pos h]
    · rw [swap_xy, if_neg h, swap_xy,
        if_neg (by simpa [Geom.isEmpty, map_isEmpty] using h),
        map_swap_xy_coords_involution]
  | .polygon shell holes => by
    by_cases h : (Geom.polygon shell holes).isEmpty
    · rw [swap_xy, if_pos h, swap_xy, if_pos h]
    · rw [swap_xy, if_neg h, swap_xy,
        if_neg (by simpa [Geom.isEmpty, map_isEmpty] using h),
        map_swap_xy_coords_involution]
      congr 1
      rw [List.map_map]
      have hcomp :
          ((fun h => List.map swap_xy_coords h) ∘ fun h => List.map swap_xy_coords h) =
            (id : List Coord → List Coord) :=
        funext map_swap_xy_coords_involution
      rw [hcomp, List.map_id]
  | .multi k parts => by
    by_cases h : (Geom.multi k parts).isEmpty
    · rw [swap_xy, if_pos h, swap_xy, if_pos h]
    · rw [swap_xy, if_neg h, swap_xy,
        if_neg (by
          simp only [Geom.isEmpty] at h ⊢
          cases parts with
          | nil => simp at h
          | cons p ps => rw [swap_xy_list]; simp),
        swap_xy_list_involution]

theorem swap_xy_list_involution : ∀ l : List Geom, swap_xy_list (swap_xy_list l) = l
  | [] => rfl
  | g :: gs => by
    rw [swap_xy_list, swap_xy_list, swap_xy_involution g, swap_xy_list_involution gs]

end

/-- Claim C7: swap_xy is an involution, for points, lines, rings, polygons
with holes, and arbitrarily nested multi-geometries and collections. -/
theorem swap_xy_c7 (g : Geom) : swap_xy (swap_xy g) = g := swap_xy_involution g

/-! ## Hexagon tiler (src/urbanpy/geom/geom.py, gen_hexagons, lines 171-198)

The h3 library is kept abstract: polyfill maps a polygon and a resolution
to the covering cell identifiers, h3_to_geo maps a cell identifier to its
(lat, lon) centroid, h3_to_geo_boundary to its boundary as a list of
[lat, lon] coordinate pairs.  All three are deterministic functions of
the identifier, which is all the dedup argument needs.  The source builds
three aligned lists (indexes, centroids, polygons) in one loop over all
polyfilled identifiers, here expressed as maps over the identifier list,
and pandas drop_duplicates keeps the first occurrence of a row. -/

theorem filter_pair_ne [DecidableEq α] [DecidableEq β] (f : α → β) (x : α) (xs : List α) :
    (xs.map (fun a => (a, f a))).filter (fun y => y ≠ (x, f x)) =
      (xs.filter (fun y => y ≠ x)).map (fun a => (a, f a)) := by
  rw [List.filter_map]
  congr 1
  apply List.filter_congr
  intro a _
  by_cases hax : a = x
  · subst hax; simp
  · simp [hax]

theorem dropDupsFirst_map_pair [DecidableEq α] [DecidableEq β] (f : α → β) :
    ∀ l : List α, dropDupsFirst (l.map (fun a => (a, f a))) =
      (dropDupsFirst l).map (fun a => (a, f a))
  | [] => by simp [dropDupsFirst_nil]
  | x :: xs => by
    simp only [List.map_cons, dropDupsFirst_cons]
    rw [filter_pair_ne f x xs, dropDupsFirst_map_pair f (xs.filter (fun y => y ≠ x))]
termination_by l => l.length
decreasing_by
  simp only [List.length_cons]
  exact Nat.lt_succ_of_le (List.length_filter_le _ xs)

/-- gen_hexagons from geom.py, parameterized over the h3 library.  city is
the polygon collection, each row a multipolygon given as its list of
single polygons (city.explode() flattens them).  The first output pairs
each cell identifier with its boundary polygon, coordinate pairs reversed
from (lat, lon) to (lon, lat); the second pairs each identifier with its
centroid point (lon, lat).  Both are deduplicated whole-row. -/
def gen_hexagons {Poly CellId : Type} [DecidableEq CellId]
    (polyfill : Poly → Nat → List CellId)
    (h3_to_geo : CellId → Rat × Rat)
    (h3_to_geo_boundary : CellId → List (List Rat))
    (resolution : Nat) (city : List (List Poly)) :
    List (CellId × List (List Rat)) × List (CellId × (Rat × Rat)) :=
  let city_poly := city.flatten
  let h3_indexes := city_poly.flatMap (fun geo => polyfill geo resolution)
  let city_hexagons :=
    dropDupsFirst (h3_indexes.map
      (fun hexagon => (hexagon, (h3_to_geo_boundary hexagon).map List.reverse)))
  let city_centroids :=
    dropDupsFirst (h3_indexes.map
      (fun hexagon => (hexagon, ((h3_to_geo hexagon).2, (h3_to_geo hexagon).1))))
  (city_hexagons, city_centroids)

/-- Claim C4: the hexagon output has pairwise distinct cell identifiers,
and the centroid output carries exactly the same identifiers in the same
order, so cells and centroids are in bijection over a common identifier
space. -/
theorem gen_hexagons_c4 {Poly CellId : Type} [DecidableEq CellId]
    (polyfill : Poly → Nat → List CellId)
    (h3_to_geo : CellId → Rat × Rat)
    (h3_to_geo_boundary : CellId → List (List Rat))
    (resolution : Nat) (city : List (List Poly)) :
    ((gen_hexagons polyfill h3_to_geo h3_to_geo_boundary resolution city).1.map
        Prod.fst).Nodup ∧
    ((gen_hexagons polyfill h3_to_geo h3_to_geo_boundary resolution city).2.map
        Prod.fst).Nodup ∧
    (gen_hexagons polyfill h3_to_geo h3_to_geo_boundary resolution city).1.map Prod.fst =
      (gen_hexagons polyfill h3_to_geo h3_to_geo_boundary resolution city).2.map Prod.fst := by
  simp only [gen_hexagons]
  rw [dropDupsFirst_map_pair (fun hexagon => (h3_to_geo_boundary hexagon).map List.reverse),
    dropDupsFirst_map_pair (fun hexagon => ((h3_to_geo hexagon).2, (h3_to_geo hexagon).1))]
  rw [List.map_map, List.map_map]
  have hfst1 : (Prod.fst ∘ fun hexagon =>
      (hexagon, (h3_to_geo_boundary hexagon).map List.reverse)) = (id : CellId → CellId) := rfl
  have hfst2 : (Prod.fst ∘ fun hexagon =>
      (hexagon, ((h3_to_geo hexagon).2, (h3_to_geo hexagon).1))) = (id : CellId → CellId) := rfl
  rw [hfst1, hfst2, List.map_id]
  exact ⟨nodup_dropDupsFirst _, nodup_dropDupsFirst _, rfl⟩

/-! ## Nearest-neighbor search (src/urbanpy/utils/utils.py, nn_search, lines 64-105)

The BallTree is kept abstract through its metric engine d, a distance
function selected by metric name; np.radians multiplies each coordinate
by the constant pi/180, carried here as the parameter rho.  A tree query
returns, per query point, the minimal distance over the reference set and
the first index attaining it.  Building a tree over an empty reference
array raises, modelled by returning none. -/

abbrev Pt := Rat × Rat

/-- np.radians applied to a (lat, lon) pair: multiply both by rho = pi/180. -/
def radiansPt (rho : Rat) (p : Pt) : Pt := (rho * p.1, rho * p.2)

/-- BallTree(refs).query(q) for a nonempty reference list: the minimal
distance under d and the first index attaining it.  The (0, 0) fallback is
unreachable: nn_search only calls this with a nonempty reference list. -/
def btQueryList (d : Pt → Pt → Rat) (refs : List Pt) (q : Pt) : Rat × Nat :=
  match (refs.map (fun r => d q r)).min? with
  | none => (0, 0)
  | some m => (m, (refs.map (fun r => d q r)).indexOf m)

/-- nn_search from utils.py, parameterized over the metric engine d and
rho, the float value of pi/180 used by np.radians.  For haversine both
inputs are converted to radians and each returned distance is scaled by
6371000/1000; any other metric uses the coordinates as given and returns
the distance in the native unit of the metric. -/
def nn_search (d : String → Pt → Pt → Rat) (rho : Rat)
    (tree_features query_features : List Pt) (metric : String) :
    Option (List (Rat × Nat)) :=
  match tree_features with
  | [] => none
  | t0 :: trest =>
    if metric = "haversine" then
      let tf := (t0 :: trest).map (radiansPt rho)
      let qf := query_features.map (radiansPt rho)
      some (qf.map (fun q =>
        let res := btQueryList (d "haversine") tf q
        (res.1 * 6371000 / 1000, res.2)))
    else
      some (query_features.map (fun q => btQueryList (d metric) (t0 :: trest) q))

theorem btQueryList_zero (d : Pt → Pt → Rat) (refs : List Pt) (q : Pt)
    (i : Nat) (hi : i < refs.length)
    (hzero : d q (refs.get ⟨i, hi⟩) = 0) (hnonneg : ∀ r ∈ refs, 0 ≤ d q r) :
    (btQueryList d refs q).1 = 0 ∧
    ∃ j, ∃ hj : j < refs.length, (btQueryList d refs q).2 = j ∧ d q (refs.get ⟨j, hj⟩) = 0 := by
  have hmem0 : (0:Rat) ∈ refs.map (fun r => d q r) := by
    rw [List.mem_map]
    exact ⟨refs.get ⟨i, hi⟩, List.get_mem refs i hi, hzero⟩
  haveI : Std.Antisymm (fun (x1 x2 : Rat) => x1 ≤ x2) := ⟨fun h1 h2 => le_antisymm h1 h2⟩
  have hmin : (refs.map (fun r => d q r)).min? = some 0 := by
    rw [List.min?_eq_some_iff (fun a => le_refl a) (fun a b => min_choice a b)
      (fun a b c => le_min_iff)]
    refine ⟨hmem0, ?_⟩
    intro b hb
    rw [List.mem_map] at hb
    obtain ⟨r, hr, hrb⟩ := hb
    exact hrb ▸ hnonneg r hr
  unfold btQueryList
  rw [hmin]
  refine ⟨rfl, ?_⟩
  have hlt : (refs.map (fun r => d q r)).indexOf 0 < (refs.map (fun r => d q r)).length :=
    List.indexOf_lt_length.mpr hmem0
  have hlen : (refs.map (fun r => d q r)).length = refs.length := List.length_map refs _
  refine ⟨(refs.map (fun r => d q r)).indexOf 0, hlen ▸ hlt, rfl, ?_⟩
  have hget : (refs.map (fun r => d q r)).get ⟨(refs.map (fun r => d q r)).indexOf 0, hlt⟩ = 0 :=
    List.indexOf_get hlt
  rw [List.get_map] at hget
  exact hget

/-- Claim C8: with the haversine metric both inputs are converted to
radians and the returned distance is the tree distance scaled by
6371000/1000 = 6371 kilometers, so a query point equal to a reference
point yields distance 0 and the index of a reference at haversine
distance 0 (that reference when it is the unique one); with any other
metric the coordinates are used as given and the distance is native. -/
theorem nn_search_c8 (d : String → Pt → Pt → Rat) (rho : Rat) (tf qf : List Pt) :
    (tf ≠ [] →
      nn_search d rho tf qf "haversine" =
        some ((qf.map (radiansPt rho)).map (fun q =>
          ((btQueryList (d "haversine") (tf.map (radiansPt rho)) q).1 * 6371,
           (btQueryList (d "haversine") (tf.map (radiansPt rho)) q).2)))) ∧
    (∀ metric : String, metric ≠ "haversine" → tf ≠ [] →
      nn_search d rho tf qf metric =
        some (qf.map (fun q => btQueryList (d metric) tf q))) ∧
    (∀ (k i : Nat) (hk : k < qf.length) (hi : i < tf.length),
      (∀ p, d "haversine" p p = 0) →
      (∀ p q, 0 ≤ d "haversine" p q) →
      qf.get ⟨k, hk⟩ = tf.get ⟨i, hi⟩ →
      ∃ l, nn_search d rho tf qf "haversine" = some l ∧
        ∃ hkl : k < l.length,
          (l.get ⟨k, hkl⟩).1 = 0 ∧
          ∃ j, ∃ hj : j < tf.length, (l.get ⟨k, hkl⟩).2 = j ∧
            d "haversine" (radiansPt rho (qf.get ⟨k, hk⟩))
              (radiansPt rho (tf.get ⟨j, hj⟩)) = 0) := by
  have h1 : tf ≠ [] →
      nn_search d rho tf qf "haversine" =
        some ((qf.map (radiansPt rho)).map (fun q =>
          ((btQueryList (d "haversine") (tf.map (radiansPt rho)) q).1 * 6371,
           (btQueryList (d "haversine") (tf.map (radiansPt rho)) q).2))) := by
    intro htf
    match tf with
    | [] => exact absurd rfl htf
    | t0 :: trest =>
      simp only [nn_search, if_true, reduceIte]
      congr 1
      apply List.map_congr_left
      intro q _
      have h6371 : ((6371000 : Rat) / 1000) = 6371 := by norm_num
      rw [mul_div_assoc, h6371]
  refine ⟨h1, ?_, ?_⟩
  · intro metric hmetric htf
    match tf with
    | [] => exact absurd rfl htf
    | t0 :: trest => simp only [nn_search, if_neg hmetric]
  · intro k i hk hi hzero hnonneg heq
    have htf : tf ≠ [] := by
      intro hnil
      rw [hnil] at hi
      simp at hi
    refine ⟨_, h1 htf, ?_⟩
    have hkl : k < ((qf.map (radiansPt rho)).map (fun q =>
        ((btQueryList (d "haversine") (tf.map (radiansPt rho)) q).1 * 6371,
         (btQueryList (d "haversine") (tf.map (radiansPt rho)) q).2))).length := by
      simp only [List.length_map]
      exact hk
    refine ⟨hkl, ?_⟩
    rw [List.get_map, List.get_map]
    have hib : i < (tf.map (radiansPt rho)).length := by
      rw [List.length_map]
      exact hi
    have hzr : d "haversine" (radiansPt rho (qf.get ⟨k, hk⟩))
        ((tf.map (radiansPt rho)).get ⟨i, hib⟩) = 0 := by
      rw [List.get_map, ← heq]
      exact hzero _
    obtain ⟨hd0, j, hj, hjeq, hjzero⟩ :=
      btQueryList_zero (d "haversine") (tf.map (radiansPt rho))
        (radiansPt rho (qf.get ⟨k, hk⟩)) i hib hzr (fun r _ => hnonneg _ r)
    have hjt : j < tf.length := by
      rw [List.length_map] at hj
      exact hj
    constructor
    · rw [hd0]
      ring
    · refine ⟨j, hjt, hjeq, ?_⟩
      rw [List.get_map] at hjzero
      exact hjzero

/-- A concrete stand-in metric engine used only to witness nn_search_c8:
the L1 distance for every metric name.  It vanishes exactly on equal
points and is nonnegative, the two properties the claim assumes of the
haversine engine. -/
def l1metric : String → Pt → Pt → Rat := fun _ p q => |p.1 - q.1| + |p.2 - q.2|

/-- Witness for C8: one reference point (1, 2) queried at the identical
point yields distance 0 and an index of a zero-distance reference. -/
theorem nn_search_c8_witness :
    ∃ l, nn_search l1metric 1 [((1:Rat), (2:Rat))] [((1:Rat), (2:Rat))] "haversine" = some l ∧
      ∃ hkl : 0 < l.length,
        (l.get ⟨0, hkl⟩).1 = 0 ∧
        ∃ j, ∃ hj : j < [((1:Rat), (2:Rat))].length,
          (l.get ⟨0, hkl⟩).2 = j ∧
          l1metric "haversine"
            (radiansPt 1 ([((1:Rat), (2:Rat))].get ⟨0, by decide⟩))
            (radiansPt 1 ([((1:Rat), (2:Rat))].get ⟨j, hj⟩)) = 0 :=
  (nn_search_c8 l1metric 1 [((1:Rat), (2:Rat))] [((1:Rat), (2:Rat))]).2.2 0 0
    (by decide) (by decide)
    (fun p => by simp [l1metric])
    (fun p q => by
      have h1 : (0:Rat) ≤ |p.1 - q.1| := abs_nonneg _
      have h2 : (0:Rat) ≤ |p.2 - q.2| := abs_nonneg _
      simp only [l1metric]
      linarith)
    rfl

/-! ## Spatial aggregator (src/urbanpy/geom/geom.py, merge_shape_hex, lines 200-259)

Dataframes are lists of rows; a row holds named column values, with none
standing for NaN.  The geometry engine behind the spatial predicate is the
parameter pred, indexed by the op name.  geopandas sjoin and the pandas
groupby aggregation engine are modelled from their documented semantics;
merge_shape_hex itself is translated from the source: sjoin, groupby on
index_right, agg, copy hex, then one loc column assignment per
aggregation key. -/

/-- A point-dataset row: a point geometry and named column values. -/
structure SRow (PtG : Type) where
  geom : PtG
  cols : List (String × Val)
deriving DecidableEq, Repr

/-- The point GeoDataFrame: its column schema plus its rows. -/
structure SFrame (PtG : Type) where
  colNames : List String
  rows : List (SRow PtG)
deriving DecidableEq, Repr

/-- A hexagon row: pandas index label, geometry, named column values. -/
structure HRow (PolyG : Type) where
  idx : Nat
  geom : PolyG
  cols : List (String × Val)
deriving DecidableEq, Repr

/-- The hexagon GeoDataFrame: its attribute column schema plus its rows. -/
structure HFrame (PolyG : Type) where
  colNames : List String
  rows : List (HRow PolyG)
deriving DecidableEq, Repr

/-- geopandas sjoin suffixing, lsuffix = left: a shape (left) column whose
name also appears among the hexagon (right) columns is renamed with the
_left suffix in the joined frame. -/
def suffixShapeCol (hexCols : List String) (c : String) : String :=
  if hexCols.contains c then c ++ "_left" else c

/-- geopandas sjoin suffixing, rsuffix = right: a hexagon (right) column
whose name also appears among the shape (left) columns is renamed with
the _right suffix in the joined frame. -/
def suffixHexCol (shapeCols : List String) (c : String) : String :=
  if shapeCols.contains c then c ++ "_right" else c

/-- The shape attribute part of a joined row, columns renamed by suffix. -/
def renameShapeRow (hexCols : List String) (cols : List (String × Val)) :
    List (String × Val) :=
  cols.map (fun p => (suffixShapeCol hexCols p.1, p.2))

/-- The hexagon attribute part of a joined row, columns renamed by suffix. -/
def renameHexRow (shapeCols : List String) (cols : List (String × Val)) :
    List (String × Val) :=
  cols.map (fun p => (suffixHexCol shapeCols p.1, p.2))

/-- The all-NaN shape part of an unmatched right-join row. -/
def shapeNaNRow (hexCols shapeCols : List String) : List (String × Val) :=
  shapeCols.map (fun c => (suffixShapeCol hexCols c, (none : Val)))

/-- The all-NaN hexagon part of an unmatched left-join row. -/
def hexNaNRow (shapeCols hexCols : List String) : List (String × Val) :=
  hexCols.map (fun c => (suffixHexCol shapeCols c, (none : Val)))

/-- The attribute column schema of the joined frame: suffixed shape
columns followed by suffixed hexagon columns. -/
def sjoinCols (shapeCols hexCols : List String) : List String :=
  shapeCols.map (suffixShapeCol hexCols) ++ hexCols.map (suffixHexCol shapeCols)

/-- geopandas sjoin(shape, hex, how, op) restricted to what merge_shape_hex
consumes: the attribute column schema of the joined frame, and per joined
row the hex label carried in index_right (none for a left-join row with
no match) together with the attribute columns of both sides, overlapping
names renamed with the _left/_right suffixes as geopandas does.  Modelled
from geopandas semantics: inner keeps one row per matched (point, cell)
pair; left additionally keeps unmatched shape rows with NaN index_right
and NaN hexagon columns; right additionally keeps unmatched hex rows with
every shape column NaN.  An unrecognized how or op raises. -/
def sjoin {PtG PolyG : Type} (pred : String → PtG → PolyG → Bool)
    (shape : SFrame PtG) (hex : HFrame PolyG) (how op : String) :
    Except String (List String × List (Option Nat × List (String × Val))) :=
  if ¬ (op = "intersects" ∨ op = "contains" ∨ op = "within") then
    .error "op must be one of intersects, contains, within"
  else if how = "inner" then
    .ok (sjoinCols shape.colNames hex.colNames,
      shape.rows.flatMap (fun s =>
        (hex.rows.filter (fun h => pred op s.geom h.geom)).map (fun h =>
          (some h.idx,
            renameShapeRow hex.colNames s.cols ++ renameHexRow shape.colNames h.cols))))
  else if how = "left" then
    .ok (sjoinCols shape.colNames hex.colNames,
      shape.rows.flatMap (fun s =>
        match hex.rows.filter (fun h => pred op s.geom h.geom) with
        | [] => [((none : Option Nat),
            renameShapeRow hex.colNames s.cols ++ hexNaNRow shape.colNames hex.colNames)]
        | ms => ms.map (fun h =>
            (some h.idx,
              renameShapeRow hex.colNames s.cols ++ renameHexRow shape.colNames h.cols))))
  else if how = "right" then
    .ok (sjoinCols shape.colNames hex.colNames,
      hex.rows.flatMap (fun h =>
        match shape.rows.filter (fun s => pred op s.geom h.geom) with
        | [] => [(some h.idx,
            shapeNaNRow hex.colNames shape.colNames ++ renameHexRow shape.colNames h.cols)]
        | ms => ms.map (fun s =>
            (some h.idx,
              renameShapeRow hex.colNames s.cols ++ renameHexRow shape.colNames h.cols))))
  else .error "how must be one of inner, left, right"

/-- The pandas groupby aggregation engine for one named reducer on the
column values of one group, modelled from pandas semantics: NaN entries are
skipped; the sum of an all-NaN group is 0 while min, max and mean of an
all-NaN group stay NaN; a reducer name pandas does not know raises. -/
def pandasReduce (fn : String) (vs : List Val) : Except String Val :=
  if fn = "sum" then .ok (some (vs.filterMap id).sum)
  else if fn = "min" then .ok (vs.filterMap id).min?
  else if fn = "max" then .ok (vs.filterMap id).max?
  else if fn = "mean" then
    .ok (match vs.filterMap id with
      | [] => none
      | present => some (present.sum / present.length))
  else if fn = "count" then .ok (some ((vs.filterMap id).length : Rat))
  else .error ("unrecognized aggregation function " ++ fn)

/-- The group keys of joined.groupby(index_right): the distinct non-NaN
index_right values; pandas drops NaN group keys. -/
def groupKeys (joined : List (Option Nat × List (String × Val))) : List Nat :=
  dropDupsFirst (joined.filterMap (fun r => r.1))

/-- The values of column col over the group of joined rows whose
index_right is k; a missing column raises (pandas KeyError). -/
def groupColumn (joined : List (Option Nat × List (String × Val))) (k : Nat) (col : String) :
    Except String (List Val) :=
  (joined.filter (fun r => r.1 == some k)).mapM (fun r =>
    match r.2.lookup col with
    | some v => .ok v
    | none => .error ("KeyError " ++ col))

/-- joined.groupby(index_right).agg(agg): pandas first validates every
aggregation key against the columns of the grouped frame and raises
KeyError when one is missing — independently of how many groups there
are — then produces one output row per group key, holding each
aggregation column reduced by its named reducer. -/
def groupbyAgg (joinedCols : List String)
    (joined : List (Option Nat × List (String × Val)))
    (agg : List (String × String)) :
    Except String (List (Nat × List (String × Val))) :=
  if agg.all (fun ca => joinedCols.contains ca.1) then
    (groupKeys joined).mapM (fun k => do
      let row ← agg.mapM (fun ca => do
        let vs ← groupColumn joined k ca.1
        let v ← pandasReduce ca.2 vs
        pure (ca.1, v))
      pure (k, row))
  else .error "KeyError: aggregation column not among the joined columns"

/-- Set one named column of a row: update in place when present, append
when absent (pandas creating the column on assignment). -/
def setAssoc (c : String) (v : Val) : List (String × Val) → List (String × Val)
  | [] => [(c, v)]
  | (k, w) :: rest => if k = c then (c, v) :: rest else (k, w) :: setAssoc c v rest

/-- Whether the frame already has column c. -/
def hexHasCol {PolyG : Type} (df : List (HRow PolyG)) (c : String) : Bool :=
  df.any (fun r => (r.cols.lookup c).isSome)

/-- The effect of one loc column assignment on one row: a row whose label
is a group key receives the aggregate of that group for column key; any other
row keeps its value when the column already exists in the frame, and gets
NaN when the assignment creates the column. -/
def locRowFn {PolyG : Type} (colExists : Bool) (key : String)
    (table : List (Nat × List (String × Val))) (r : HRow PolyG) : HRow PolyG :=
  match table.lookup r.idx with
  | some aggRow => { r with cols := setAssoc key ((aggRow.lookup key).join) r.cols }
  | none => if colExists then r else { r with cols := setAssoc key (none : Val) r.cols }

/-- ret_hex.loc[hex_merge.index, key] = hex_merge[key].values. -/
def locWriteCol {PolyG : Type} (df : List (HRow PolyG)) (key : String)
    (table : List (Nat × List (String × Val))) : List (HRow PolyG) :=
  df.map (locRowFn (hexHasCol df key) key table)

/-- Column creation on assignment: ret_hex gains the key when absent. -/
def addCol (cols : List String) (c : String) : List String :=
  if cols.contains c then cols else cols ++ [c]

/-- merge_shape_hex from geom.py: spatially join shape onto hex, group the
joined rows by index_right, aggregate with agg, and write the aggregates
back onto a copy of hex, one loc column assignment per aggregation key.
The loc assignment ret_hex.loc[hex_merge.index, key] = values sets with a
raw ndarray, so pandas requires the number of selected rows to equal the
number of values; a group-key label duplicated among the hexagon labels
makes the selection longer than the values and the assignment raises
(Must have equal len keys and value when setting with an iterable). -/
def merge_shape_hex {PtG PolyG : Type} (pred : String → PtG → PolyG → Bool)
    (hex : HFrame PolyG) (shape : SFrame PtG) (how op : String)
    (agg : List (String × String)) : Except String (HFrame PolyG) := do
  let joined ← sjoin pred shape hex how op
  let hex_merge ← groupbyAgg joined.1 joined.2 agg
  if (hex_merge.map Prod.fst).all
      (fun k => hex.rows.countP (fun r => r.idx == k) == 1) then
    pure ⟨agg.foldl (fun cs ca => addCol cs ca.1) hex.colNames,
      agg.foldl (fun df ca => locWriteCol df ca.1 hex_merge) hex.rows⟩
  else
    .error "ValueError: must have equal len keys and value when setting with an iterable"

/-- Counterexample to claim C1 as stated: the aggregation map sends pop to
mean, a reducer outside {sum, min, max}, yet merge_shape_hex surfaces no
error: the name is passed through to the reduction engine, which happily
computes the mean of the two joined values 10 and 20. -/
theorem merge_shape_hex_c1_counterexample :
    (("mean":String) ≠ "sum" ∧ ("mean":String) ≠ "min" ∧ ("mean":String) ≠ "max") ∧
    merge_shape_hex (fun _ _ _ => true) ⟨[], [⟨0, (), []⟩]⟩
      ⟨["pop"], [⟨(), [("pop", some 10)]⟩, ⟨(), [("pop", some 20)]⟩]⟩
      "inner" "within" [("pop", "mean")] =
      .ok ⟨["pop"], [⟨0, (), [("pop", some 15)]⟩]⟩ := by
  refine ⟨⟨by decide, by decide, by decide⟩, ?_⟩
  norm_num +decide [merge_shape_hex, sjoin, sjoinCols, suffixShapeCol, suffixHexCol,
    renameShapeRow, renameHexRow, shapeNaNRow, hexNaNRow, addCol, groupbyAgg, groupKeys,
    dropDupsFirst_nil, dropDupsFirst_cons, groupColumn, pandasReduce, locWriteCol, locRowFn,
    hexHasCol, setAssoc, List.mapM, List.mapM.loop, List.flatMap, List.filterMap, Option.join,
    Except.bind, bind, pure, Except.pure]

/-- Counterexample to claim C2 as stated, in three parts.  First, when an
aggregation key names a column already present on the hexagon dataset,
the join suffixes that column to pop_left and pop_right, so the
aggregation raises a missing-column error — no result at all, rather
than preserved rows.  Second, under how = right the right join keeps the
unmatched cell as a group whose shape columns are all NaN, and pandas
sums an all-NaN group to 0, so the aggregate column of a cell with no
joined points becomes 0 rather than staying unset.  Third, when two
hexagon rows share the label 0 and that label is a group key, the loc
write-back selects two rows for one aggregate value and raises, again
yielding no result. -/
theorem merge_shape_hex_c2_counterexample :
    merge_shape_hex (fun _ _ _ => false) ⟨["pop"], [⟨0, (), [("pop", some 7)]⟩]⟩
      ⟨["pop"], [⟨(), [("pop", some 3)]⟩]⟩ "inner" "within" [("pop", "sum")] =
      .error "KeyError: aggregation column not among the joined columns" ∧
    merge_shape_hex (fun _ _ _ => false) ⟨[], [⟨0, (), []⟩]⟩
      ⟨["pop"], [⟨(), [("pop", some 3)]⟩]⟩ "right" "within" [("pop", "sum")] =
      .ok ⟨["pop"], [⟨0, (), [("pop", some 0)]⟩]⟩ ∧
    merge_shape_hex (fun _ _ _ => true) ⟨[], [⟨0, (), []⟩, ⟨0, (), []⟩]⟩
      ⟨["pop"], [⟨(), [("pop", some 3)]⟩]⟩ "inner" "within" [("pop", "sum")] =
      .error
        "ValueError: must have equal len keys and value when setting with an iterable" := by
  refine ⟨?_, ?_, ?_⟩ <;>
    norm_num +decide [merge_shape_hex, sjoin, sjoinCols, suffixShapeCol, suffixHexCol,
      renameShapeRow, renameHexRow, shapeNaNRow, hexNaNRow, addCol, groupbyAgg, groupKeys,
      dropDupsFirst_nil, dropDupsFirst_cons, groupColumn, pandasReduce, locWriteCol, locRowFn,
      hexHasCol, setAssoc, List.mapM, List.mapM.loop, List.flatMap, List.filterMap, Option.join,
      Except.bind, bind, pure, Except.pure]

theorem lookup_setAssoc_self (c : String) (v : Val) :
    ∀ l : List (String × Val), (setAssoc c v l).lookup c = some v
  | [] => by simp [setAssoc, List.lookup_cons]
  | (k, w) :: rest => by
    by_cases h : k = c
    · simp [setAssoc, h, List.lookup_cons]
    · rw [setAssoc, if_neg h, List.lookup_cons]
      have : (c == k) = false := by
        simp only [beq_eq_false_iff_ne, ne_eq]
        exact fun hc => h hc.symm
      rw [this]
      exact lookup_setAssoc_self c v rest

theorem lookup_setAssoc_ne (c c2 : String) (v : Val) (hne : c2 ≠ c) :
    ∀ l : List (String × Val), (setAssoc c v l).lookup c2 = l.lookup c2
  | [] => by
    rw [setAssoc, List.lookup_cons]
    have : (c2 == c) = false := by simpa using hne
    rw [this]
  | (k, w) :: rest => by
    by_cases h : k = c
    · subst h
      rw [setAssoc, if_pos rfl, List.lookup_cons, List.lookup_cons]
      have : (c2 == k) = false := by simpa using hne
      rw [this]
    · rw [setAssoc, if_neg h, List.lookup_cons, List.lookup_cons]
      cases hkc : (c2 == k) with
      | true => rfl
      | false => exact lookup_setAssoc_ne c c2 v hne rest

theorem lookup_eq_none_of_not_mem_map_fst {β : Type} (k : Nat) :
    ∀ l : List (Nat × β), k ∉ l.map Prod.fst → l.lookup k = none
  | [] => fun _ => rfl
  | (k2, b) :: rest => fun h => by
    simp only [List.map_cons, List.mem_cons] at h
    push_neg at h
    rw [List.lookup_cons]
    have : (k == k2) = false := by simpa using h.1
    rw [this]
    exact lookup_eq_none_of_not_mem_map_fst k rest h.2

theorem lookup_map_none_isSome (c : String) :
    ∀ cs : List String, c ∈ cs →
      ((cs.map (fun c2 => (c2, (none : Val)))).lookup c).isSome
  | [], h => by simp at h
  | c2 :: rest, h => by
    rw [List.map_cons, List.lookup_cons]
    by_cases hc : c = c2
    · have : (c == c2) = true := by simpa using hc
      rw [this]
      rfl
    · have : (c == c2) = false := by simpa using hc
      rw [this]
      have hmem : c ∈ rest := by
        rcases List.mem_cons.mp h with h1 | h1
        · exact absurd h1 hc
        · exact h1
      exact lookup_map_none_isSome c rest hmem

theorem mapM_ok_of_forall {α β : Type} (f : α → Except String β) :
    ∀ l : List α, (∀ x ∈ l, ∃ y, f x = .ok y) → ∃ ys, l.mapM f = .ok ys
  | [], _ => ⟨[], by rw [List.mapM_nil]; rfl⟩
  | x :: xs, h => by
    obtain ⟨y, hy⟩ := h x (List.mem_cons_self x xs)
    obtain ⟨ys, hys⟩ := mapM_ok_of_forall f xs (fun a ha => h a (List.mem_cons_of_mem x ha))
    refine ⟨y :: ys, ?_⟩
    rw [List.mapM_cons, hy, hys]
    rfl

theorem mapM_pair_ok {β : Type} (g : Nat → Except String β) :
    ∀ ks : List Nat, (∀ k ∈ ks, ∃ row, g k = .ok row) →
      ∃ tbl : List (Nat × β),
        (ks.mapM (fun k => do
          let row ← g k
          pure (k, row)) = .ok tbl) ∧
        tbl.map Prod.fst = ks
  | [], _ => ⟨[], by rw [List.mapM_nil]; exact ⟨rfl, rfl⟩⟩
  | k :: ks, h => by
    obtain ⟨row, hrow⟩ := h k (List.mem_cons_self k ks)
    obtain ⟨tbl, htbl, hfst⟩ :=
      mapM_pair_ok g ks (fun a ha => h a (List.mem_cons_of_mem k ha))
    refine ⟨(k, row) :: tbl, ?_, ?_⟩
    · rw [List.mapM_cons]
      simp only [bind, Except.bind, pure, Except.pure] at htbl ⊢
      simp only [hrow, htbl]
    · rw [List.map_cons, hfst]

theorem pandasReduce_ok (fn : String) (vs : List Val)
    (h : fn = "sum" ∨ fn = "min" ∨ fn = "max" ∨ fn = "mean" ∨ fn = "count") :
    ∃ v, pandasReduce fn vs = .ok v := by
  rcases h with h | h | h | h | h <;> subst h <;> simp +decide [pandasReduce]

theorem groupColumn_ok (joined : List (Option Nat × List (String × Val))) (k : Nat)
    (col : String) (h : ∀ r ∈ joined, (r.2.lookup col).isSome) :
    ∃ vs, groupColumn joined k col = .ok vs := by
  apply mapM_ok_of_forall
  intro r hr
  have hs := h r (List.mem_of_mem_filter hr)
  cases hlk : r.2.lookup col with
  | some v => exact ⟨v, by simp only [hlk]⟩
  | none => rw [hlk] at hs; simp at hs

theorem lookup_isSome_append_left (c : String) :
    ∀ l1 l2 : List (String × Val), (l1.lookup c).isSome →
      ((l1 ++ l2).lookup c).isSome
  | [], _, h => by simp [List.lookup] at h
  | (k, v) :: rest, l2, h => by
    rw [List.cons_append, List.lookup_cons]
    rw [List.lookup_cons] at h
    cases hck : (c == k) with
    | true => rfl
    | false =>
      rw [hck] at h
      exact lookup_isSome_append_left c rest l2 h

theorem lookup_mapKeys_isSome (f : String → String) (c : String) (hfc : f c = c) :
    ∀ cols : List (String × Val), (cols.lookup c).isSome →
      ((cols.map (fun p => (f p.1, p.2))).lookup c).isSome
  | [], h => by simp [List.lookup] at h
  | (k, v) :: rest, h => by
    rw [List.map_cons, List.lookup_cons]
    cases hcfk : (c == f k) with
    | true => rfl
    | false =>
      have hck : (c == k) = false := by
        cases hck2 : (c == k) with
        | false => rfl
        | true =>
          have hceq : c = k := by simpa using hck2
          rw [← hceq, hfc] at hcfk
          simp at hcfk
      rw [List.lookup_cons, hck] at h
      exact lookup_mapKeys_isSome f c hfc rest h

theorem lookup_mapKeys_none_isSome (f : String → String) (c : String) (hfc : f c = c) :
    ∀ cs : List String, c ∈ cs →
      ((cs.map (fun c2 => (f c2, (none : Val)))).lookup c).isSome
  | [], h => by simp at h
  | c2 :: rest, h => by
    rw [List.map_cons, List.lookup_cons]
    cases hcf : (c == f c2) with
    | true => rfl
    | false =>
      have hne : c ≠ c2 := by
        intro he
        rw [← he, hfc] at hcf
        simp at hcf
      have hmem : c ∈ rest := by
        rcases List.mem_cons.mp h with h1 | h1
        · exact absurd h1 hne
        · exact h1
      exact lookup_mapKeys_none_isSome f c hfc rest hmem

theorem suffixShapeCol_id (hexCols : List String) (c : String) (h : c ∉ hexCols) :
    suffixShapeCol hexCols c = c := by
  unfold suffixShapeCol
  rw [if_neg]
  simpa using h

theorem countP_idx_eq_one {PolyG : Type} (k : Nat) :
    ∀ rows : List (HRow PolyG), (rows.map HRow.idx).Nodup →
      ∀ h2 ∈ rows, h2.idx = k → rows.countP (fun r => r.idx == k) = 1
  | [], _, h2, hmem, _ => by simp at hmem
  | a :: t, hnd, h2, hmem, hk => by
    rw [List.map_cons, List.nodup_cons] at hnd
    rw [List.countP_cons]
    rcases List.mem_cons.mp hmem with he | ht
    · have hk2 : a.idx = k := he ▸ hk
      have hpa : (a.idx == k) = true := by simpa using hk2
      have hz : t.countP (fun r => r.idx == k) = 0 := by
        rw [List.countP_eq_zero]
        intro r hr hp
        have h3 : r.idx = k := by simpa using hp
        have h4 : a.idx = r.idx := by rw [hk2, h3]
        exact hnd.1 (h4 ▸ List.mem_map_of_mem HRow.idx hr)
      rw [hz, hpa, if_pos rfl]
    · have hpa : (a.idx == k) = false := by
        cases hpa2 : (a.idx == k) with
        | false => rfl
        | true =>
          have h3 : a.idx = k := by simpa using hpa2
          have h4 : a.idx ∈ t.map HRow.idx := by
            have h5 := List.mem_map_of_mem HRow.idx ht
            rw [hk] at h5
            rw [h3]
            exact h5
          exact absurd h4 hnd.1
      rw [countP_idx_eq_one k t hnd.2 h2 ht hk, hpa, if_neg (by simp)]

theorem groupbyAgg_ok (joinedCols : List String)
    (joined : List (Option Nat × List (String × Val)))
    (agg : List (String × String))
    (hschema : ∀ ca ∈ agg, ca.1 ∈ joinedCols)
    (hcols : ∀ r ∈ joined, ∀ ca ∈ agg, (r.2.lookup ca.1).isSome)
    (hred : ∀ ca ∈ agg,
      ca.2 = "sum" ∨ ca.2 = "min" ∨ ca.2 = "max" ∨ ca.2 = "mean" ∨ ca.2 = "count") :
    ∃ tbl, groupbyAgg joinedCols joined agg = .ok tbl ∧
      tbl.map Prod.fst = groupKeys joined := by
  unfold groupbyAgg
  rw [if_pos]
  · apply mapM_pair_ok
    intro k _
    apply mapM_ok_of_forall
    intro ca hca
    obtain ⟨vs, hvs⟩ := groupColumn_ok joined k ca.1 (fun r hr => hcols r hr ca hca)
    obtain ⟨v, hv⟩ := pandasReduce_ok ca.2 vs (hred ca hca)
    refine ⟨(ca.1, v), ?_⟩
    simp only [hvs, hv, bind, Except.bind, pure, Except.pure]
  · rw [List.all_eq_true]
    intro ca hca
    simpa using hschema ca hca

theorem sjoin_ok {PtG PolyG : Type} (pred : String → PtG → PolyG → Bool)
    (shape : SFrame PtG) (hex : HFrame PolyG) (how op : String)
    (hhow : how = "inner" ∨ how = "left" ∨ how = "right")
    (hop : op = "intersects" ∨ op = "contains" ∨ op = "within") :
    ∃ rows, sjoin pred shape hex how op =
        .ok (sjoinCols shape.colNames hex.colNames, rows) ∧
      (∀ r ∈ rows, (∃ s ∈ shape.rows, ∃ rest,
          r.2 = renameShapeRow hex.colNames s.cols ++ rest) ∨
        (∃ rest, r.2 = shapeNaNRow hex.colNames shape.colNames ++ rest)) ∧
      (∀ r ∈ rows, ∀ k, r.1 = some k → ∃ h2 ∈ hex.rows, h2.idx = k) := by
  unfold sjoin
  rw [if_neg (not_not_intro hop)]
  rcases hhow with h | h | h <;> subst h
  · rw [if_pos rfl]
    refine ⟨_, rfl, ?_, ?_⟩
    · intro r hr
      rw [List.mem_flatMap] at hr
      obtain ⟨s, hs, hmem⟩ := hr
      rw [List.mem_map] at hmem
      obtain ⟨h2, _, heq⟩ := hmem
      exact Or.inl ⟨s, hs, renameHexRow shape.colNames h2.cols, by rw [← heq]⟩
    · intro r hr k hk
      rw [List.mem_flatMap] at hr
      obtain ⟨s, hs, hmem⟩ := hr
      rw [List.mem_map] at hmem
      obtain ⟨h2, hmemf, heq⟩ := hmem
      refine ⟨h2, List.mem_of_mem_filter hmemf, ?_⟩
      rw [← heq] at hk
      simpa using hk
  · rw [if_neg (by decide), if_pos rfl]
    refine ⟨_, rfl, ?_, ?_⟩
    · intro r hr
      rw [List.mem_flatMap] at hr
      obtain ⟨s, hs, hmem⟩ := hr
      cases hfil : hex.rows.filter (fun h2 => pred op s.geom h2.geom) with
      | nil =>
        rw [hfil] at hmem
        simp at hmem
        exact Or.inl ⟨s, hs, hexNaNRow shape.colNames hex.colNames, by rw [hmem]⟩
      | cons m ms =>
        rw [hfil] at hmem
        simp only [List.mem_map] at hmem
        obtain ⟨h2, _, heq⟩ := hmem
        exact Or.inl ⟨s, hs, renameHexRow shape.colNames h2.cols, by rw [← heq]⟩
    · intro r hr k hk
      rw [List.mem_flatMap] at hr
      obtain ⟨s, hs, hmem⟩ := hr
      cases hfil : hex.rows.filter (fun h2 => pred op s.geom h2.geom) with
      | nil =>
        rw [hfil] at hmem
        simp at hmem
        rw [hmem] at hk
        simp at hk
      | cons m ms =>
        rw [hfil] at hmem
        simp only [List.mem_map] at hmem
        obtain ⟨h2, hmemf, heq⟩ := hmem
        refine ⟨h2, List.mem_of_mem_filter (hfil ▸ hmemf), ?_⟩
        rw [← heq] at hk
        simpa using hk
  · rw [if_neg (by decide), if_neg (by decide), if_pos rfl]
    refine ⟨_, rfl, ?_, ?_⟩
    · intro r hr
      rw [List.mem_flatMap] at hr
      obtain ⟨h2, hh2, hmem⟩ := hr
      cases hfil : shape.rows.filter (fun s => pred op s.geom h2.geom) with
      | nil =>
        rw [hfil] at hmem
        simp at hmem
        exact Or.inr ⟨renameHexRow shape.colNames h2.cols, by rw [hmem]⟩
      | cons m ms =>
        rw [hfil] at hmem
        simp only [List.mem_map] at hmem
        obtain ⟨s, hsm, heq⟩ := hmem
        exact Or.inl ⟨s, List.mem_of_mem_filter (hfil ▸ hsm),
          renameHexRow shape.colNames h2.cols, by rw [← heq]⟩
    · intro r hr k hk
      rw [List.mem_flatMap] at hr
      obtain ⟨h2, hh2, hmem⟩ := hr
      cases hfil : shape.rows.filter (fun s => pred op s.geom h2.geom) with
      | nil =>
        rw [hfil] at hmem
        simp at hmem
        refine ⟨h2, hh2, ?_⟩
        rw [hmem] at hk
        simpa using hk
      | cons m ms =>
        rw [hfil] at hmem
        simp only [List.mem_map] at hmem
        obtain ⟨s, hsm, heq⟩ := hmem
        refine ⟨h2, hh2, ?_⟩
        rw [← heq] at hk
        simpa using hk

theorem sjoin_innerleft_spec {PtG PolyG : Type} (pred : String → PtG → PolyG → Bool)
    (shape : SFrame PtG) (hex : HFrame PolyG) (how op : String)
    (hhow : how = "inner" ∨ how = "left")
    (hop : op = "intersects" ∨ op = "contains" ∨ op = "within") :
    ∃ rows, sjoin pred shape hex how op =
        .ok (sjoinCols shape.colNames hex.colNames, rows) ∧
      (∀ r ∈ rows, ∃ s ∈ shape.rows, ∃ rest,
        r.2 = renameShapeRow hex.colNames s.cols ++ rest) ∧
      (∀ r ∈ rows, ∀ k, r.1 = some k →
        ∃ s ∈ shape.rows, ∃ h2 ∈ hex.rows, pred op s.geom h2.geom = true ∧ h2.idx = k) := by
  unfold sjoin
  rw [if_neg (not_not_intro hop)]
  rcases hhow with h | h <;> subst h
  · rw [if_pos rfl]
    refine ⟨_, rfl, ?_, ?_⟩
    · intro r hr
      rw [List.mem_flatMap] at hr
      obtain ⟨s, hs, hmem⟩ := hr
      rw [List.mem_map] at hmem
      obtain ⟨h2, _, heq⟩ := hmem
      exact ⟨s, hs, renameHexRow shape.colNames h2.cols, by rw [← heq]⟩
    · intro r hr k hk
      rw [List.mem_flatMap] at hr
      obtain ⟨s, hs, hmem⟩ := hr
      rw [List.mem_map] at hmem
      obtain ⟨h2, hmemf, heq⟩ := hmem
      rw [List.mem_filter] at hmemf
      refine ⟨s, hs, h2, hmemf.1, hmemf.2, ?_⟩
      rw [← heq] at hk
      simpa using hk
  · rw [if_neg (by decide), if_pos rfl]
    refine ⟨_, rfl, ?_, ?_⟩
    · intro r hr
      rw [List.mem_flatMap] at hr
      obtain ⟨s, hs, hmem⟩ := hr
      cases hfil : hex.rows.filter (fun h2 => pred op s.geom h2.geom) with
      | nil =>
        rw [hfil] at hmem
        simp at hmem
        exact ⟨s, hs, hexNaNRow shape.colNames hex.colNames, by rw [hmem]⟩
      | cons m ms =>
        rw [hfil] at hmem
        simp only [List.mem_map] at hmem
        obtain ⟨h2, _, heq⟩ := hmem
        exact ⟨s, hs, renameHexRow shape.colNames h2.cols, by rw [← heq]⟩
    · intro r hr k hk
      rw [List.mem_flatMap] at hr
      obtain ⟨s, hs, hmem⟩ := hr
      cases hfil : hex.rows.filter (fun h2 => pred op s.geom h2.geom) with
      | nil =>
        rw [hfil] at hmem
        simp at hmem
        rw [hmem] at hk
        simp at hk
      | cons m ms =>
        rw [hfil] at hmem
        simp only [List.mem_map] at hmem
        obtain ⟨h2, hmemf, heq⟩ := hmem
        have hmemf2 : h2 ∈ hex.rows.filter (fun h2 => pred op s.geom h2.geom) :=
          hfil ▸ hmemf
        rw [List.mem_filter] at hmemf2
        refine ⟨s, hs, h2, hmemf2.1, hmemf2.2, ?_⟩
        rw [← heq] at hk
        simpa using hk

/-- Claim C1 as amended: merge_shape_hex performs no validation of the
reducer names in the aggregation map; the map is handed unchanged to the
underlying reduction engine, so — for aggregation keys that are shape
columns not colliding with hexagon columns, over a hexagon frame with
distinct labels — every engine-supported reducer name, including names
outside {sum, min, max} such as mean and count, is silently accepted and
computed; a failure can only originate inside the join or reduction
engines, never from a reducer-name check in merge_shape_hex. -/
theorem merge_shape_hex_c1_amended {PtG PolyG : Type} (pred : String → PtG → PolyG → Bool)
    (hex : HFrame PolyG) (shape : SFrame PtG) (how op : String)
    (agg : List (String × String))
    (hhow : how = "inner" ∨ how = "left" ∨ how = "right")
    (hop : op = "intersects" ∨ op = "contains" ∨ op = "within")
    (hnodup : (hex.rows.map HRow.idx).Nodup)
    (hnocollide : ∀ ca ∈ agg, ca.1 ∉ hex.colNames)
    (hcols : ∀ s ∈ shape.rows, ∀ ca ∈ agg, (s.cols.lookup ca.1).isSome)
    (hnames : ∀ ca ∈ agg, ca.1 ∈ shape.colNames)
    (hred : ∀ ca ∈ agg,
      ca.2 = "sum" ∨ ca.2 = "min" ∨ ca.2 = "max" ∨ ca.2 = "mean" ∨ ca.2 = "count") :
    ∃ out, merge_shape_hex pred hex shape how op agg = .ok out := by
  obtain ⟨rows, hj, hprov, hkeys⟩ := sjoin_ok pred shape hex how op hhow hop
  have hc : ∀ r ∈ rows, ∀ ca ∈ agg, (r.2.lookup ca.1).isSome := by
    intro r hr ca hca
    have hid : suffixShapeCol hex.colNames ca.1 = ca.1 :=
      suffixShapeCol_id hex.colNames ca.1 (hnocollide ca hca)
    rcases hprov r hr with ⟨s, hs, rest, heq⟩ | ⟨rest, heq⟩
    · rw [heq]
      apply lookup_isSome_append_left
      exact lookup_mapKeys_isSome (suffixShapeCol hex.colNames) ca.1 hid s.cols
        (hcols s hs ca hca)
    · rw [heq]
      apply lookup_isSome_append_left
      exact lookup_mapKeys_none_isSome (suffixShapeCol hex.colNames) ca.1 hid
        shape.colNames (hnames ca hca)
  have hschema : ∀ ca ∈ agg, ca.1 ∈ sjoinCols shape.colNames hex.colNames := by
    intro ca hca
    unfold sjoinCols
    apply List.mem_append_left
    rw [List.mem_map]
    exact ⟨ca.1, hnames ca hca,
      suffixShapeCol_id hex.colNames ca.1 (hnocollide ca hca)⟩
  obtain ⟨tbl, ht, hfst⟩ :=
    groupbyAgg_ok (sjoinCols shape.colNames hex.colNames) rows agg hschema hc hred
  have hcheck : (tbl.map Prod.fst).all
      (fun k => hex.rows.countP (fun r => r.idx == k) == 1) = true := by
    rw [List.all_eq_true]
    intro k hkmem
    rw [hfst] at hkmem
    unfold groupKeys at hkmem
    rw [mem_dropDupsFirst, List.mem_filterMap] at hkmem
    obtain ⟨r, hr, hr1⟩ := hkmem
    obtain ⟨h2, hh2, hidx⟩ := hkeys r hr k hr1
    rw [countP_idx_eq_one k hex.rows hnodup h2 hh2 hidx]
    rfl
  refine ⟨⟨agg.foldl (fun cs ca => addCol cs ca.1) hex.colNames,
    agg.foldl (fun df ca => locWriteCol df ca.1 tbl) hex.rows⟩, ?_⟩
  unfold merge_shape_hex
  simp only [bind, Except.bind, pure, Except.pure, hj, ht, hcheck, if_true]

/-- Witness for the amended C1: a single hexagon with no attribute
columns, one joined point, and the engine-supported reducer mean, which
lies outside {sum, min, max} and is accepted. -/
theorem merge_shape_hex_c1_amended_witness :
    ∃ out, merge_shape_hex (fun _ _ _ => true)
      (⟨[], [⟨0, (), []⟩]⟩ : HFrame Unit)
      (⟨["pop"], [⟨(), [("pop", some 10)]⟩]⟩ : SFrame Unit)
      "inner" "within" [("pop", "mean")] = .ok out :=
  merge_shape_hex_c1_amended (fun _ _ _ => true) ⟨[], [⟨0, (), []⟩]⟩
    ⟨["pop"], [⟨(), [("pop", some 10)]⟩]⟩ "inner" "within" [("pop", "mean")]
    (Or.inl rfl) (Or.inr (Or.inr rfl))
    (by decide)
    (by intro ca hca
        simp only [List.mem_singleton] at hca
        subst hca
        decide)
    (by intro s hs ca hca
        simp only [List.mem_singleton] at hs hca
        subst hs
        subst hca
        decide)
    (by intro ca hca
        simp only [List.mem_singleton] at hca
        subst hca
        decide)
    (by intro ca hca
        simp only [List.mem_singleton] at hca
        subst hca
        decide)

/-- A column is unset on a row when it is absent or holds NaN. -/
def colUnset (cols : List (String × Val)) (c : String) : Prop :=
  cols.lookup c = none ∨ cols.lookup c = some none

theorem locRowFn_idx_geom {PolyG : Type} (e : Bool) (key : String)
    (table : List (Nat × List (String × Val))) (r : HRow PolyG) :
    (locRowFn e key table r).idx = r.idx ∧ (locRowFn e key table r).geom = r.geom := by
  unfold locRowFn
  cases table.lookup r.idx with
  | some aggRow => exact ⟨rfl, rfl⟩
  | none => by_cases he : e <;> simp [he]

theorem locRowFn_lookup_ne {PolyG : Type} (e : Bool) (key : String)
    (table : List (Nat × List (String × Val))) (r : HRow PolyG) (c : String) (hc : c ≠ key) :
    (locRowFn e key table r).cols.lookup c = r.cols.lookup c := by
  unfold locRowFn
  cases table.lookup r.idx with
  | some aggRow => exact lookup_setAssoc_ne key c _ hc r.cols
  | none =>
    by_cases he : e
    · simp [he]
    · rw [if_neg (by simp [he])]
      exact lookup_setAssoc_ne key c _ hc r.cols

theorem locRowFn_unset {PolyG : Type} (e : Bool) (key : String)
    (table : List (Nat × List (String × Val))) (r : HRow PolyG)
    (hnone : table.lookup r.idx = none) (c : String) (hu : colUnset r.cols c) :
    colUnset (locRowFn e key table r).cols c := by
  unfold locRowFn
  rw [hnone]
  show colUnset (if e = true then r
    else { r with cols := setAssoc key (none : Val) r.cols }).cols c
  by_cases he : e = true
  · rw [if_pos he]
    exact hu
  · rw [if_neg he]
    by_cases hc : c = key
    · subst hc
      exact Or.inr (lookup_setAssoc_self c none r.cols)
    · show (setAssoc key (none : Val) r.cols).lookup c = none ∨
        (setAssoc key (none : Val) r.cols).lookup c = some none
      rw [lookup_setAssoc_ne key c _ hc r.cols]
      exact hu

theorem aggFold_length {PolyG : Type} (table : List (Nat × List (String × Val))) :
    ∀ (agg : List (String × String)) (df : List (HRow PolyG)),
      (agg.foldl (fun d ca => locWriteCol d ca.1 table) df).length = df.length
  | [], _ => rfl
  | ca :: rest, df => by
    show (rest.foldl (fun d ca2 => locWriteCol d ca2.1 table)
      (locWriteCol df ca.1 table)).length = df.length
    rw [aggFold_length table rest (locWriteCol df ca.1 table)]
    simp [locWriteCol]

theorem aggFold_get {PolyG : Type} (table : List (Nat × List (String × Val))) :
    ∀ (agg : List (String × String)) (df : List (HRow PolyG)) (i : Nat)
      (hi : i < df.length)
      (hio : i < (agg.foldl (fun d ca => locWriteCol d ca.1 table) df).length),
      ((agg.foldl (fun d ca => locWriteCol d ca.1 table) df).get ⟨i, hio⟩).idx =
        (df.get ⟨i, hi⟩).idx ∧
      ((agg.foldl (fun d ca => locWriteCol d ca.1 table) df).get ⟨i, hio⟩).geom =
        (df.get ⟨i, hi⟩).geom ∧
      (∀ c, (∀ ca ∈ agg, c ≠ ca.1) →
        ((agg.foldl (fun d ca => locWriteCol d ca.1 table) df).get ⟨i, hio⟩).cols.lookup c =
          (df.get ⟨i, hi⟩).cols.lookup c) ∧
      (table.lookup (df.get ⟨i, hi⟩).idx = none →
        ∀ c, colUnset (df.get ⟨i, hi⟩).cols c →
          colUnset ((agg.foldl (fun d ca => locWriteCol d ca.1 table) df).get ⟨i, hio⟩).cols c)
  | [], df, i, hi, hio => ⟨rfl, rfl, fun _ _ => rfl, fun _ _ hu => hu⟩
  | ca :: rest, df, i, hi, hio => by
    have hi' : i < (locWriteCol df ca.1 table).length := by
      simpa [locWriteCol] using hi
    have hfold : (ca :: rest).foldl (fun d ca2 => locWriteCol d ca2.1 table) df =
        rest.foldl (fun d ca2 => locWriteCol d ca2.1 table) (locWriteCol df ca.1 table) := rfl
    have hio' : i < (rest.foldl (fun d ca2 => locWriteCol d ca2.1 table)
        (locWriteCol df ca.1 table)).length := by
      rw [← hfold]
      exact hio
    obtain ⟨ih1, ih2, ih3, ih4⟩ :=
      aggFold_get table rest (locWriteCol df ca.1 table) i hi' hio'
    have hget : (locWriteCol df ca.1 table).get ⟨i, hi'⟩ =
        locRowFn (hexHasCol df ca.1) ca.1 table (df.get ⟨i, hi⟩) := by
      simp [locWriteCol, List.get_map]
    obtain ⟨hidx, hgeom⟩ :=
      locRowFn_idx_geom (hexHasCol df ca.1) ca.1 table (df.get ⟨i, hi⟩)
    have hout : ((ca :: rest).foldl (fun d ca2 => locWriteCol d ca2.1 table) df).get ⟨i, hio⟩ =
        (rest.foldl (fun d ca2 => locWriteCol d ca2.1 table)
          (locWriteCol df ca.1 table)).get ⟨i, hio'⟩ := rfl
    refine ⟨?_, ?_, ?_, ?_⟩
    · rw [hout, ih1, hget, hidx]
    · rw [hout, ih2, hget, hgeom]
    · intro c hc
      have hcrest : ∀ ca2 ∈ rest, c ≠ ca2.1 :=
        fun ca2 hca2 => hc ca2 (List.mem_cons_of_mem ca hca2)
      rw [hout, ih3 c hcrest, hget,
        locRowFn_lookup_ne _ _ _ _ c (hc ca (List.mem_cons_self ca rest))]
    · intro hnone c hu
      have hnone' : table.lookup ((locWriteCol df ca.1 table).get ⟨i, hi'⟩).idx = none := by
        rw [hget, hidx]
        exact hnone
      have hu' : colUnset ((locWriteCol df ca.1 table).get ⟨i, hi'⟩).cols c := by
        rw [hget]
        exact locRowFn_unset _ _ _ _ hnone c hu
      rw [hout]
      exact ih4 hnone' c hu'

/-- Claim C2 as amended: for how = inner or left, with pairwise distinct
hexagon labels and aggregation keys that are shape columns naming no
existing hexagon column, merge_shape_hex succeeds and its output has
exactly the original row set — same length, same labels, same
geometries — with only the aggregation-map keys added or overwritten; a
cell with no joined points has each aggregate column unset (absent or
NaN) rather than zero.  Each proviso is forced by the counterexample:
how = right is excluded because the right join keeps unmatched cells as
all-NaN groups that pandas sums to 0; an aggregation key colliding with
a hexagon column is suffixed away by the join and the aggregation raises
a missing-column error; and duplicated hexagon labels make the loc
write-back raise a length-mismatch error. -/
theorem merge_shape_hex_c2_amended {PtG PolyG : Type} (pred : String → PtG → PolyG → Bool)
    (hex : HFrame PolyG) (shape : SFrame PtG) (how op : String)
    (agg : List (String × String))
    (hhow : how = "inner" ∨ how = "left")
    (hop : op = "intersects" ∨ op = "contains" ∨ op = "within")
    (hnodup : (hex.rows.map HRow.idx).Nodup)
    (hnocollide : ∀ ca ∈ agg, ca.1 ∉ hex.colNames)
    (hfresh : ∀ ca ∈ agg, ∀ h2 ∈ hex.rows, h2.cols.lookup ca.1 = none)
    (hcols : ∀ s ∈ shape.rows, ∀ ca ∈ agg, (s.cols.lookup ca.1).isSome)
    (hnames : ∀ ca ∈ agg, ca.1 ∈ shape.colNames)
    (hred : ∀ ca ∈ agg, ca.2 = "sum" ∨ ca.2 = "min" ∨ ca.2 = "max") :
    ∃ out, merge_shape_hex pred hex shape how op agg = .ok out ∧
      out.rows.length = hex.rows.length ∧
      ∀ i (hi : i < hex.rows.length) (hio : i < out.rows.length),
        (out.rows.get ⟨i, hio⟩).idx = (hex.rows.get ⟨i, hi⟩).idx ∧
        (out.rows.get ⟨i, hio⟩).geom = (hex.rows.get ⟨i, hi⟩).geom ∧
        (∀ c, (∀ ca ∈ agg, c ≠ ca.1) →
          (out.rows.get ⟨i, hio⟩).cols.lookup c = (hex.rows.get ⟨i, hi⟩).cols.lookup c) ∧
        ((∀ s ∈ shape.rows, pred op s.geom (hex.rows.get ⟨i, hi⟩).geom = false) →
          ∀ ca ∈ agg, (out.rows.get ⟨i, hio⟩).cols.lookup ca.1 = none ∨
            (out.rows.get ⟨i, hio⟩).cols.lookup ca.1 = some none) := by
  obtain ⟨rows, hj, hprov, hkeyfact⟩ := sjoin_innerleft_spec pred shape hex how op hhow hop
  have hc : ∀ r ∈ rows, ∀ ca ∈ agg, (r.2.lookup ca.1).isSome := by
    intro r hr ca hca
    have hid : suffixShapeCol hex.colNames ca.1 = ca.1 :=
      suffixShapeCol_id hex.colNames ca.1 (hnocollide ca hca)
    obtain ⟨s, hs, rest, heq⟩ := hprov r hr
    rw [heq]
    apply lookup_isSome_append_left
    exact lookup_mapKeys_isSome (suffixShapeCol hex.colNames) ca.1 hid s.cols
      (hcols s hs ca hca)
  have hschema : ∀ ca ∈ agg, ca.1 ∈ sjoinCols shape.colNames hex.colNames := by
    intro ca hca
    unfold sjoinCols
    apply List.mem_append_left
    rw [List.mem_map]
    exact ⟨ca.1, hnames ca hca,
      suffixShapeCol_id hex.colNames ca.1 (hnocollide ca hca)⟩
  have hred5 : ∀ ca ∈ agg,
      ca.2 = "sum" ∨ ca.2 = "min" ∨ ca.2 = "max" ∨ ca.2 = "mean" ∨ ca.2 = "count" := by
    intro ca hca
    rcases hred ca hca with h | h | h
    · exact Or.inl h
    · exact Or.inr (Or.inl h)
    · exact Or.inr (Or.inr (Or.inl h))
  obtain ⟨tbl, ht, hfst⟩ :=
    groupbyAgg_ok (sjoinCols shape.colNames hex.colNames) rows agg hschema hc hred5
  have hcheck : (tbl.map Prod.fst).all
      (fun k => hex.rows.countP (fun r => r.idx == k) == 1) = true := by
    rw [List.all_eq_true]
    intro k hkmem
    rw [hfst] at hkmem
    unfold groupKeys at hkmem
    rw [mem_dropDupsFirst, List.mem_filterMap] at hkmem
    obtain ⟨r, hr, hr1⟩ := hkmem
    obtain ⟨s, hs, h2, hh2, hpred, hidx⟩ := hkeyfact r hr k hr1
    rw [countP_idx_eq_one k hex.rows hnodup h2 hh2 hidx]
    rfl
  refine ⟨⟨agg.foldl (fun cs ca => addCol cs ca.1) hex.colNames,
    agg.foldl (fun df ca => locWriteCol df ca.1 tbl) hex.rows⟩, ?_,
    aggFold_length tbl agg hex.rows, ?_⟩
  · unfold merge_shape_hex
    simp only [bind, Except.bind, pure, Except.pure, hj, ht, hcheck, if_true]
  · intro i hi hio
    obtain ⟨h1, h2, h3, h4⟩ := aggFold_get tbl agg hex.rows i hi hio
    refine ⟨h1, h2, h3, ?_⟩
    intro hnomatch ca hca
    have hnokey : (hex.rows.get ⟨i, hi⟩).idx ∉ groupKeys rows := by
      intro hmemk
      unfold groupKeys at hmemk
      rw [mem_dropDupsFirst] at hmemk
      rw [List.mem_filterMap] at hmemk
      obtain ⟨r, hr, hr1⟩ := hmemk
      obtain ⟨s, hs, h2x, hh2, hpred, hidx⟩ := hkeyfact r hr _ hr1
      have heqrow : h2x = hex.rows.get ⟨i, hi⟩ :=
        List.inj_on_of_nodup_map hnodup hh2 (List.get_mem hex.rows i hi) hidx
      rw [heqrow] at hpred
      rw [hnomatch s hs] at hpred
      exact absurd hpred (by simp)
    have hnone : tbl.lookup (hex.rows.get ⟨i, hi⟩).idx = none := by
      apply lookup_eq_none_of_not_mem_map_fst
      rw [hfst]
      exact hnokey
    exact h4 hnone ca.1 (Or.inl (hfresh ca hca _ (List.get_mem hex.rows i hi)))

/-- Witness for the amended C2: two hexagons with labels 0 and 1 and no
attribute columns, one point joined only to hexagon 0 (the predicate
engine matches geometry 0), sum aggregation over a fresh pop column. -/
theorem merge_shape_hex_c2_amended_witness :
    ∃ out, merge_shape_hex (fun _ (_ : Unit) (g : Nat) => g == 0)
        ⟨[], [⟨0, 0, []⟩, ⟨1, 1, []⟩]⟩ ⟨["pop"], [⟨(), [("pop", some 3)]⟩]⟩
        "inner" "within" [("pop", "sum")] = .ok out ∧
      out.rows.length = [(⟨0, 0, []⟩ : HRow Nat), ⟨1, 1, []⟩].length ∧
      ∀ i (hi : i < [(⟨0, 0, []⟩ : HRow Nat), ⟨1, 1, []⟩].length) (hio : i < out.rows.length),
        (out.rows.get ⟨i, hio⟩).idx = ([(⟨0, 0, []⟩ : HRow Nat), ⟨1, 1, []⟩].get ⟨i, hi⟩).idx ∧
        (out.rows.get ⟨i, hio⟩).geom = ([(⟨0, 0, []⟩ : HRow Nat), ⟨1, 1, []⟩].get ⟨i, hi⟩).geom ∧
        (∀ c, (∀ ca ∈ [(("pop", "sum") : String × String)], c ≠ ca.1) →
          (out.rows.get ⟨i, hio⟩).cols.lookup c =
            ([(⟨0, 0, []⟩ : HRow Nat), ⟨1, 1, []⟩].get ⟨i, hi⟩).cols.lookup c) ∧
        ((∀ s ∈ (⟨["pop"], [⟨(), [("pop", some 3)]⟩]⟩ : SFrame Unit).rows,
            (fun _ (_ : Unit) (g : Nat) => g == 0) "within" s.geom
              (([(⟨0, 0, []⟩ : HRow Nat), ⟨1, 1, []⟩].get ⟨i, hi⟩).geom) = false) →
          ∀ ca ∈ [(("pop", "sum") : String × String)],
            (out.rows.get ⟨i, hio⟩).cols.lookup ca.1 = none ∨
            (out.rows.get ⟨i, hio⟩).cols.lookup ca.1 = some none) :=
  merge_shape_hex_c2_amended (fun _ (_ : Unit) (g : Nat) => g == 0)
    ⟨[], [⟨0, 0, []⟩, ⟨1, 1, []⟩]⟩ ⟨["pop"], [⟨(), [("pop", some 3)]⟩]⟩
    "inner" "within" [("pop", "sum")]
    (Or.inl rfl) (Or.inr (Or.inr rfl)) (by decide) (by decide) (by decide) (by decide)
    (by decide) (by decide)

/-! ## Network annotator (src/urbanpy/geom/geom.py, osmnx_graph_download, lines 261-312)

The osmnx library is abstract: graph_from_polygon builds a street network
clipped to a polygon (or raises), basic_stats and extended_stats compute
named statistic dictionaries from a graph (or raise).  Exceptions are
Except values.  The source iterates gdf.iterrows(), wraps each row in
try/except, writes the requested statistics with gdf.loc[index, stat],
and on an exception prints the record index with the error and continues;
here the printed messages are collected as the returned log. -/

/-- A polygon row of the annotator input: geometry plus named columns. -/
structure GRow (PolyG : Type) where
  geometry : PolyG
  cols : List (String × Val)
deriving DecidableEq, Repr

/-- The body of the try block for one row: build the graph, compute both
statistic dictionaries, then write each requested statistic into the row
(a missing dictionary entry writes NaN, as dict.get returns None). -/
def annotateRow {PolyG G : Type}
    (graph_from_polygon : PolyG → String → Except String G)
    (basic_stats_fn : G → Except String (List (String × Rat)))
    (extended_stats_fn : G → Bool → Bool → Bool → Bool → Bool →
      Except String (List (String × Rat)))
    (net_type : String) (basic_stats extended_stats : List String)
    (connectivity anc ecc bc cc : Bool) (row : GRow PolyG) :
    Except String (GRow PolyG) := do
  let graph ← graph_from_polygon row.geometry net_type
  let b_stats ← basic_stats_fn graph
  let ext_stats ← extended_stats_fn graph connectivity anc ecc bc cc
  let row1 := basic_stats.foldl
    (fun r stat => { r with cols := setAssoc stat (b_stats.lookup stat) r.cols }) row
  let row2 := extended_stats.foldl
    (fun r stat => { r with cols := setAssoc stat (ext_stats.lookup stat) r.cols }) row1
  pure row2

/-- osmnx_graph_download from geom.py: every row is processed
independently inside try/except; a failing row is left unchanged and its
record index is printed with the error (the log), and the loop always
runs to completion. -/
def osmnx_graph_download {PolyG G : Type}
    (graph_from_polygon : PolyG → String → Except String G)
    (basic_stats_fn : G → Except String (List (String × Rat)))
    (extended_stats_fn : G → Bool → Bool → Bool → Bool → Bool →
      Except String (List (String × Rat)))
    (gdf : List (GRow PolyG)) (net_type : String)
    (basic_stats extended_stats : List String)
    (connectivity anc ecc bc cc : Bool) :
    List (GRow PolyG) × List (Nat × String) :=
  (gdf.map (fun r =>
    match annotateRow graph_from_polygon basic_stats_fn extended_stats_fn
        net_type basic_stats extended_stats connectivity anc ecc bc cc r with
    | .ok r2 => r2
    | .error _ => r),
   gdf.enum.filterMap (fun p =>
    match annotateRow graph_from_polygon basic_stats_fn extended_stats_fn
        net_type basic_stats extended_stats connectivity anc ecc bc cc p.2 with
    | .ok _ => none
    | .error e => some (p.1, e)))

/-- Claim C5: the batch call always returns (no exception escapes), each
row is processed independently — row i of the output is exactly the
annotation of row i of the input, as if every other row were absent — a
failing row is returned unchanged (so its requested statistic columns
stay unset when they were unset) and is logged with its record index and
error, and the log holds nothing but the failing rows. -/
theorem osmnx_graph_download_c5 {PolyG G : Type}
    (graph_from_polygon : PolyG → String → Except String G)
    (basic_stats_fn : G → Except String (List (String × Rat)))
    (extended_stats_fn : G → Bool → Bool → Bool → Bool → Bool →
      Except String (List (String × Rat)))
    (gdf : List (GRow PolyG)) (net_type : String)
    (basic_stats extended_stats : List String)
    (connectivity anc ecc bc cc : Bool) :
    (osmnx_graph_download graph_from_polygon basic_stats_fn extended_stats_fn
      gdf net_type basic_stats extended_stats connectivity anc ecc bc cc).1.length =
      gdf.length ∧
    (∀ i (hi : i < gdf.length)
      (hio : i < (osmnx_graph_download graph_from_polygon basic_stats_fn extended_stats_fn
        gdf net_type basic_stats extended_stats connectivity anc ecc bc cc).1.length),
      (∀ e, annotateRow graph_from_polygon basic_stats_fn extended_stats_fn
          net_type basic_stats extended_stats connectivity anc ecc bc cc
          (gdf.get ⟨i, hi⟩) = .error e →
        (osmnx_graph_download graph_from_polygon basic_stats_fn extended_stats_fn
          gdf net_type basic_stats extended_stats connectivity anc ecc bc cc).1.get ⟨i, hio⟩ =
          gdf.get ⟨i, hi⟩ ∧
        (i, e) ∈ (osmnx_graph_download graph_from_polygon basic_stats_fn extended_stats_fn
          gdf net_type basic_stats extended_stats connectivity anc ecc bc cc).2) ∧
      (∀ r2, annotateRow graph_from_polygon basic_stats_fn extended_stats_fn
          net_type basic_stats extended_stats connectivity anc ecc bc cc
          (gdf.get ⟨i, hi⟩) = .ok r2 →
        (osmnx_graph_download graph_from_polygon basic_stats_fn extended_stats_fn
          gdf net_type basic_stats extended_stats connectivity anc ecc bc cc).1.get ⟨i, hio⟩ =
          r2)) ∧
    (∀ p ∈ (osmnx_graph_download graph_from_polygon basic_stats_fn extended_stats_fn
        gdf net_type basic_stats extended_stats connectivity anc ecc bc cc).2,
      ∃ hp : p.1 < gdf.length,
        annotateRow graph_from_polygon basic_stats_fn extended_stats_fn
          net_type basic_stats extended_stats connectivity anc ecc bc cc
          (gdf.get ⟨p.1, hp⟩) = .error p.2) := by
  refine ⟨by simp [osmnx_graph_download], ?_, ?_⟩
  · intro i hi hio
    constructor
    · intro e he
      constructor
      · show (gdf.map _).get ⟨i, hio⟩ = gdf.get ⟨i, hi⟩
        rw [List.get_map]
        simp only [he]
      · show (i, e) ∈ gdf.enum.filterMap _
        rw [List.mem_filterMap]
        refine ⟨(i, gdf.get ⟨i, hi⟩), ?_, ?_⟩
        · rw [List.mem_enum_iff_getElem?]
          simp [List.getElem?_eq_getElem hi]
        · simp only [he]
    · intro r2 hr2
      show (gdf.map _).get ⟨i, hio⟩ = r2
      rw [List.get_map]
      simp only [hr2]
  · intro p hp
    simp only [osmnx_graph_download] at hp
    rw [List.mem_filterMap] at hp
    obtain ⟨q, hq, hmatch⟩ := hp
    rw [List.mem_enum_iff_getElem?] at hq
    rw [List.getElem?_eq_some] at hq
    obtain ⟨hlt, hval⟩ := hq
    cases hann : annotateRow graph_from_polygon basic_stats_fn extended_stats_fn
        net_type basic_stats extended_stats connectivity anc ecc bc cc q.2 with
    | ok r2 => rw [hann] at hmatch; simp at hmatch
    | error e =>
      rw [hann] at hmatch
      simp only [Option.some.injEq] at hmatch
      subst hmatch
      refine ⟨hlt, ?_⟩
      have hq2 : gdf.get ⟨q.1, hlt⟩ = q.2 := hval
      rw [hq2, hann]

/-- Witness for C5 at a batch of five rows where only the middle row (at
record index 2) raises during graph construction: the stub engine fails
exactly on geometry 2. -/
theorem osmnx_graph_download_c5_witness :
    ((osmnx_graph_download
        (fun (g : Nat) (_ : String) =>
          if g == 2 then (.error "empty graph" : Except String Unit) else .ok ())
        (fun _ => .ok [("n", 5)]) (fun _ _ _ _ _ _ => .ok [])
        [⟨0, []⟩, ⟨1, []⟩, ⟨2, []⟩, ⟨3, []⟩, ⟨4, []⟩] "drive" ["n"] []
        false false false false false).1.length =
      [(⟨0, []⟩ : GRow Nat), ⟨1, []⟩, ⟨2, []⟩, ⟨3, []⟩, ⟨4, []⟩].length) ∧
    ((osmnx_graph_download
        (fun (g : Nat) (_ : String) =>
          if g == 2 then (.error "empty graph" : Except String Unit) else .ok ())
        (fun _ => .ok [("n", 5)]) (fun _ _ _ _ _ _ => .ok [])
        [⟨0, []⟩, ⟨1, []⟩, ⟨2, []⟩, ⟨3, []⟩, ⟨4, []⟩] "drive" ["n"] []
        false false false false false).1.get ⟨2, by decide⟩ = ⟨2, []⟩ ∧
      ((2 : Nat), "empty graph") ∈ (osmnx_graph_download
        (fun (g : Nat) (_ : String) =>
          if g == 2 then (.error "empty graph" : Except String Unit) else .ok ())
        (fun _ => .ok [("n", 5)]) (fun _ _ _ _ _ _ => .ok [])
        [⟨0, []⟩, ⟨1, []⟩, ⟨2, []⟩, ⟨3, []⟩, ⟨4, []⟩] "drive" ["n"] []
        false false false false false).2) :=
  ⟨(osmnx_graph_download_c5
      (fun (g : Nat) (_ : String) =>
        if g == 2 then (.error "empty graph" : Except String Unit) else .ok ())
      (fun _ => .ok [("n", 5)]) (fun _ _ _ _ _ _ => .ok [])
      [⟨0, []⟩, ⟨1, []⟩, ⟨2, []⟩, ⟨3, []⟩, ⟨4, []⟩] "drive" ["n"] []
      false false false false false).1,
   (osmnx_graph_download_c5
      (fun (g : Nat) (_ : String) =>
        if g == 2 then (.error "empty graph" : Except String Unit) else .ok ())
      (fun _ => .ok [("n", 5)]) (fun _ _ _ _ _ _ => .ok [])
      [⟨0, []⟩, ⟨1, []⟩, ⟨2, []⟩, ⟨3, []⟩, ⟨4, []⟩] "drive" ["n"] []
      false false false false false).2.1 2 (by decide) (by decide)
    |>.1 "empty graph" rfl⟩

/-! ## Ownership (claim C9)

Python object identity is made explicit with a small heap: a reference is
an index into a list of objects.  merge_shape_hex writes only to
ret_hex = hex.copy(), so at the object level it allocates its result as a
fresh object and leaves every existing heap cell unchanged.
osmnx_graph_download writes its statistics with gdf.loc[index, stat]
directly on the input object and returns gdf itself, so at the object
level it overwrites the input reference and returns that same
reference. -/

def heapGet {δ : Type} (h : List δ) (r : Nat) : Option δ := h[r]?

def heapSet {δ : Type} (h : List δ) (r : Nat) (v : δ) : List δ := h.set r v

def heapAlloc {δ : Type} (h : List δ) (v : δ) : List δ × Nat := (h ++ [v], h.length)

/-- merge_shape_hex at the object level: read the hex and shape objects,
run the dataframe-level function, allocate the result as a new object
(the hex.copy() of the source); on an error the heap is untouched. -/
def merge_shape_hex_st {PtG PolyG : Type} (pred : String → PtG → PolyG → Bool)
    (heap : List (HFrame PolyG ⊕ SFrame PtG)) (hexRef shapeRef : Nat)
    (how op : String) (agg : List (String × String)) :
    List (HFrame PolyG ⊕ SFrame PtG) × Option Nat :=
  match heapGet heap hexRef, heapGet heap shapeRef with
  | some (.inl hex), some (.inr shape) =>
    match merge_shape_hex pred hex shape how op agg with
    | .ok res =>
      let alloc := heapAlloc heap (.inl res)
      (alloc.1, some alloc.2)
    | .error _ => (heap, none)
  | _, _ => (heap, none)

/-- osmnx_graph_download at the object level: the annotated rows are
written back onto the input object itself and the same reference is
returned. -/
def osmnx_graph_download_st {PolyG G : Type}
    (graph_from_polygon : PolyG → String → Except String G)
    (basic_stats_fn : G → Except String (List (String × Rat)))
    (extended_stats_fn : G → Bool → Bool → Bool → Bool → Bool →
      Except String (List (String × Rat)))
    (heap : List (List (GRow PolyG))) (gdfRef : Nat) (net_type : String)
    (basic_stats extended_stats : List String)
    (connectivity anc ecc bc cc : Bool) :
    List (List (GRow PolyG)) × Option Nat :=
  match heapGet heap gdfRef with
  | some gdf =>
    (heapSet heap gdfRef
      (osmnx_graph_download graph_from_polygon basic_stats_fn extended_stats_fn
        gdf net_type basic_stats extended_stats connectivity anc ecc bc cc).1,
     some gdfRef)
  | none => (heap, none)

/-- Counterexample to claim C9 as stated: the network annotator does not
return its dataset by value.  A one-row heap is annotated by a stub
engine; after the call the object of the caller (heap cell 0) has changed —
it now carries the statistic column — and the returned dataset is that
very same object (reference 0). -/
theorem osmnx_graph_download_c9_counterexample :
    (osmnx_graph_download_st
        (fun (_ : Unit) (_ : String) => (.ok () : Except String Unit))
        (fun _ => .ok [("n", 5)]) (fun _ _ _ _ _ _ => .ok [])
        [[⟨(), []⟩]] 0 "drive" ["n"] [] false false false false false).2 = some 0 ∧
    heapGet (osmnx_graph_download_st
        (fun (_ : Unit) (_ : String) => (.ok () : Except String Unit))
        (fun _ => .ok [("n", 5)]) (fun _ _ _ _ _ _ => .ok [])
        [[⟨(), []⟩]] 0 "drive" ["n"] [] false false false false false).1 0 =
      some [⟨(), [("n", some 5)]⟩] ∧
    heapGet [[(⟨(), []⟩ : GRow Unit)]] 0 ≠ some [⟨(), [("n", some 5)]⟩] := by
  refine ⟨rfl, rfl, by decide⟩

/-- Claim C9 as amended: merge_shape_hex returns its result by value — it
allocates a fresh object and leaves every existing object, in particular
both inputs, unchanged — while the network annotator mutates its input
dataset in place: it returns the very reference it was given, and after
the call that object holds the annotated rows. -/
theorem ownership_c9_amended {PtG PolyG G : Type} (pred : String → PtG → PolyG → Bool)
    (heap : List (HFrame PolyG ⊕ SFrame PtG)) (hexRef shapeRef : Nat)
    (how op : String) (agg : List (String × String))
    (graph_from_polygon : PolyG → String → Except String G)
    (basic_stats_fn : G → Except String (List (String × Rat)))
    (extended_stats_fn : G → Bool → Bool → Bool → Bool → Bool →
      Except String (List (String × Rat)))
    (heap2 : List (List (GRow PolyG))) (gdfRef : Nat) (net_type : String)
    (basic_stats extended_stats : List String)
    (connectivity anc ecc bc cc : Bool) :
    (∀ r, r < heap.length →
      heapGet (merge_shape_hex_st pred heap hexRef shapeRef how op agg).1 r =
        heapGet heap r) ∧
    (∀ gdf, heapGet heap2 gdfRef = some gdf →
      (osmnx_graph_download_st graph_from_polygon basic_stats_fn extended_stats_fn
        heap2 gdfRef net_type basic_stats extended_stats
        connectivity anc ecc bc cc).2 = some gdfRef ∧
      heapGet (osmnx_graph_download_st graph_from_polygon basic_stats_fn extended_stats_fn
        heap2 gdfRef net_type basic_stats extended_stats
        connectivity anc ecc bc cc).1 gdfRef =
        some (osmnx_graph_download graph_from_polygon basic_stats_fn extended_stats_fn
          gdf net_type basic_stats extended_stats connectivity anc ecc bc cc).1) := by
  constructor
  · intro r hr
    unfold merge_shape_hex_st
    cases heapGet heap hexRef with
    | none => rfl
    | some o1 =>
      cases o1 with
      | inl hex =>
        cases heapGet heap shapeRef with
        | none => rfl
        | some o2 =>
          cases o2 with
          | inl s2 => rfl
          | inr shape =>
            show heapGet
              (match merge_shape_hex pred hex shape how op agg with
                | Except.ok res => (heap ++ [Sum.inl res], some heap.length)
                | Except.error _ => (heap, none)).1 r = heapGet heap r
            cases merge_shape_hex pred hex shape how op agg with
            | ok res =>
              show heapGet (heap ++ [Sum.inl res]) r = heapGet heap r
              unfold heapGet
              rw [List.getElem?_append]
              rw [if_pos hr]
            | error e => rfl
      | inr s1 => rfl
  · intro gdf hget
    unfold osmnx_graph_download_st
    rw [hget]
    refine ⟨rfl, ?_⟩
    show heapGet (heapSet heap2 gdfRef _) gdfRef = _
    unfold heapGet heapSet
    have hlt : gdfRef < heap2.length := by
      by_contra hge
      unfold heapGet at hget
      rw [List.getElem?_eq_none (Nat.le_of_not_lt hge)] at hget
      exact Option.noConfusion hget
    rw [List.getElem?_set_self hlt]

/-- Witness for the amended C9: a concrete one-object heap for each
component; the merge leaves its input object unchanged and the annotator
returns its input reference with the annotated rows written into it. -/
theorem ownership_c9_amended_witness :
    (∀ r, r < [(Sum.inl ⟨[], [⟨0, (), []⟩]⟩ :
        HFrame Unit ⊕ SFrame Unit)].length →
      heapGet (merge_shape_hex_st (fun _ _ _ => true)
        [Sum.inl ⟨[], [⟨0, (), []⟩]⟩] 0 1 "inner" "within" []).1 r =
        heapGet [(Sum.inl ⟨[], [⟨0, (), []⟩]⟩ :
          HFrame Unit ⊕ SFrame Unit)] r) ∧
    (∀ gdf, heapGet [[(⟨(), []⟩ : GRow Unit)]] 0 = some gdf →
      (osmnx_graph_download_st
        (fun (_ : Unit) (_ : String) => (.ok () : Except String Unit))
        (fun _ => .ok [("n", 5)]) (fun _ _ _ _ _ _ => .ok [])
        [[⟨(), []⟩]] 0 "drive" ["n"] [] false false false false false).2 = some 0 ∧
      heapGet (osmnx_graph_download_st
        (fun (_ : Unit) (_ : String) => (.ok () : Except String Unit))
        (fun _ => .ok [("n", 5)]) (fun _ _ _ _ _ _ => .ok [])
        [[⟨(), []⟩]] 0 "drive" ["n"] [] false false false false false).1 0 =
        some (osmnx_graph_download
          (fun (_ : Unit) (_ : String) => (.ok () : Except String Unit))
          (fun _ => .ok [("n", 5)]) (fun _ _ _ _ _ _ => .ok [])
          gdf "drive" ["n"] [] false false false false false).1) :=
  ownership_c9_amended (fun _ _ _ => true) [Sum.inl ⟨[], [⟨0, (), []⟩]⟩] 0 1 "inner" "within" []
    (fun (_ : Unit) (_ : String) => (.ok () : Except String Unit))
    (fun _ => .ok [("n", 5)]) (fun _ _ _ _ _ _ => .ok [])
    [[⟨(), []⟩]] 0 "drive" ["n"] [] false false false false false

end UrbanPy
